import Mathlib

/-!
# Echo server: request dispatcher and its three responders

A shallow embedding of `cmd/echo-server/main.go`.

* Go strings are modelled by `String` (a Go string holding valid UTF-8 text),
  byte slices and message payloads by lists of byte values.
* Every function of the program that performs input or output is modelled by
  the list of effects it performs, in program order (`Effect`).  What the
  outside world answers (environment variables, `os.Hostname`, `rand.Int`,
  the result of the websocket handshake, the messages the peer sends, the
  arms taken by `select`) is an explicit input (`Env`, `Transport`).
* Two of the responders loop until the peer goes away.  A run is therefore a
  `Run`: the effects performed so far and whether the function has returned.
  When the scripted answers of the outside world are used up while the code
  waits (in `ReadMessage` or in `select`), the run is reported as not
  returned.
* Go's `int` is taken 64 bits wide.  An `int` is modelled by an integer, and
  the one arithmetic operation the program does on an `int`, the increment
  of the event counter, wraps around in two's complement (`wrapInt`).  The
  value of `rand.Int` is a natural number below `2 ^ 63`.
* The functions of the Go standard library and of `gorilla/websocket` that
  the program calls are modelled by their documented behaviour, each under
  its own name, in the first section.
-/

namespace EchoServer

/-! ## Library functions -/

/-- Go's `strings.Split(s, sep)` for a one-byte separator, on the characters
of the string: the pieces between the separators, in order; a string without
separator gives one piece, the empty string gives one empty piece. -/
def splitChars (sep : Char) : List Char → List (List Char)
  | [] => [[]]
  | c :: cs =>
    if c = sep then [] :: splitChars sep cs
    else match splitChars sep cs with
      | [] => [[c]]
      | l :: ls => (c :: l) :: ls

/-- Go's `strings.Split(s, sep)` for a one-byte separator. -/
def strings.Split (s : String) (sep : Char) : List String :=
  (splitChars sep s.data).map String.mk

/-- Go's `strings.Join(parts, sep)` for a one-byte separator. -/
def strings.Join (parts : List String) (sep : Char) : String :=
  String.mk ([sep].intercalate (parts.map String.data))

/-- Go's `strings.Count(s, sep)` for a one-byte separator. -/
def strings.Count (s : String) (sep : Char) : Nat :=
  s.data.count sep

/-- The value of an integer expression in Go's `int`, 64 bits wide: the
result wraps around in two's complement, so `2 ^ 63` becomes `-2 ^ 63`; a
value between `-2 ^ 63` and `2 ^ 63 - 1` is left as it is. -/
def wrapInt (x : Int) : Int := (x + 2 ^ 63) % 2 ^ 64 - 2 ^ 63

/-- Go's `strconv.Itoa`: the decimal rendering of an integer, with a leading
minus sign when negative. -/
def strconv.Itoa (i : Int) : String := toString i

/-- Rendering of a format string whose only verbs are `%s`, applied to string
arguments (the part of Go's `fmt` the program uses when it writes to the
response): each `%s` is replaced by the next argument, every other character
is copied. -/
def sprintfChars : List Char → List String → List Char
  | [], _ => []
  | [c], _ => [c]
  | c :: d :: cs, args =>
    if c = '%' ∧ d = 's' then
      match args with
      | a :: rest => a.data ++ sprintfChars cs rest
      | [] => c :: d :: sprintfChars cs []
    else c :: sprintfChars (d :: cs) args

/-- Go's `fmt.Sprintf` for `%s` verbs and string arguments. -/
def fmt.Sprintf (format : String) (args : List String) : String :=
  String.mk (sprintfChars format.data args)

/-- Go's `[]byte(s)`: the UTF-8 bytes of a string. -/
def bytesOf (s : String) : List Nat :=
  s.toUTF8.data.toList.map UInt8.toNat

/-- Go's `unicode.SimpleFold` on code points, for the orbits that contain an
ASCII letter: `A`..`Z` and `a`..`z` swap case, except that `K`, `k` and the
Kelvin sign U+212A form one orbit, as do `S`, `s` and the long s U+017F.
Runes outside these orbits are returned unchanged (the Unicode tables are not
reproduced), which is exact whenever one of the two compared runes is ASCII. -/
def simpleFold (r : Nat) : Nat :=
  if r = 0x4B then 0x6B
  else if r = 0x6B then 0x212A
  else if r = 0x212A then 0x4B
  else if r = 0x53 then 0x73
  else if r = 0x73 then 0x17F
  else if r = 0x17F then 0x53
  else if 0x41 ≤ r ∧ r ≤ 0x5A then r + 0x20
  else if 0x61 ≤ r ∧ r ≤ 0x7A then r - 0x20
  else r

/-- The loop `for r != sr && r < tr { r = unicode.SimpleFold(r) }` of
`strings.EqualFold`, with a bound on the number of iterations that exceeds
the length of every orbit. -/
def foldLoop : Nat → Nat → Nat → Nat → Nat
  | 0, _, _, r => r
  | n + 1, sr, tr, r =>
    if r ≠ sr ∧ r < tr then foldLoop n sr tr (simpleFold r) else r

/-- One step of `strings.EqualFold`: whether two runes are equal under simple
case folding. -/
def runeEqualFold (sr tr : Nat) : Bool :=
  if tr = sr then true
  else
    let lo := if tr < sr then tr else sr
    let hi := if tr < sr then sr else tr
    if hi < 0x80 then
      decide (0x41 ≤ lo ∧ lo ≤ 0x5A ∧ hi = lo + 0x20)
    else
      decide (foldLoop 4 lo hi (simpleFold lo) = hi)

/-- The rune-by-rune comparison of `strings.EqualFold`. -/
def equalFoldRunes : List Nat → List Nat → Bool
  | [], [] => true
  | [], _ :: _ => false
  | _ :: _, [] => false
  | sr :: s, tr :: t => runeEqualFold sr tr && equalFoldRunes s t

/-- Go's `strings.EqualFold`: equality of two strings under Unicode simple
case folding, exact whenever one of the two strings is ASCII. -/
def strings.EqualFold (s t : String) : Bool :=
  equalFoldRunes (s.data.map Char.toNat) (t.data.map Char.toNat)

/-- Space octets of `github.com/gorilla/websocket` (`util.go`): space, tab,
carriage return and line feed. -/
def isSpaceOctet (c : Char) : Bool :=
  c.toNat = 32 || c.toNat = 9 || c.toNat = 13 || c.toNat = 10

/-- Token octets of `github.com/gorilla/websocket` (`util.go`): the ASCII
characters that are neither controls nor one of the separators
space, tab, double quote, parentheses, comma, slash, colon, semicolon, angle
brackets, equals, question mark, at sign, square brackets, backslash and
braces. -/
def isTokenOctet (c : Char) : Bool :=
  decide (c.toNat ≤ 127) && !(decide (c.toNat ≤ 31) || c.toNat = 127) &&
    !([32, 9, 34, 40, 41, 44, 47, 58, 59, 60, 61, 62, 63, 64, 91, 93, 92, 123, 125].contains
      c.toNat)

/-- The function `skipSpace` of the websocket library. -/
def skipSpace (s : List Char) : List Char := s.dropWhile isSpaceOctet

/-- The function `nextToken` of the websocket library: the longest leading run
of token octets, and the rest. -/
def nextToken (s : List Char) : List Char × List Char :=
  (s.takeWhile isTokenOctet, s.dropWhile isTokenOctet)

/-- The function `equalASCIIFold` of the websocket library: equality up to
the case of ASCII letters. -/
def equalASCIIFold : List Char → List Char → Bool
  | [], [] => true
  | [], _ :: _ => false
  | _ :: _, [] => false
  | sr :: s, tr :: t =>
    let lower := fun (r : Char) =>
      if 0x41 ≤ r.toNat ∧ r.toNat ≤ 0x5A then r.toNat + 0x20 else r.toNat
    (sr = tr || lower sr = lower tr) && equalASCIIFold s t

/-- The inner loop of `tokenListContainsValue` on one header value: reads the
comma separated tokens of `s` and reports whether one of them equals `value`
up to ASCII case.  The first argument bounds the number of tokens read. -/
def tokenLoop : Nat → List Char → List Char → Bool
  | 0, _, _ => false
  | n + 1, s, value =>
    let (t, s1) := nextToken (skipSpace s)
    if t = [] then false
    else
      let s2 := skipSpace s1
      match s2 with
      | [] => equalASCIIFold t value
      | c :: rest =>
        if c ≠ ',' then false
        else if equalASCIIFold t value then true
        else tokenLoop n rest value

/-- The function `tokenListContainsValue` of the websocket library: whether
one of the values of header `name` holds the token `value`. -/
def tokenListContainsValue (header : List (String × List String)) (name value : String) :
    Bool :=
  ((header.lookup name).getD []).any
    (fun s => tokenLoop (s.length + 1) s.data value.data)

/-- Whether a request is a websocket upgrade, `websocket.IsWebSocketUpgrade`:
the `Connection` header holds the token `upgrade` and the `Upgrade` header
holds the token `websocket`. -/
def IsWebSocketUpgrade (header : List (String × List String)) : Bool :=
  tokenListContainsValue header "Connection" "upgrade" &&
    tokenListContainsValue header "Upgrade" "websocket"

/-- Go's `http.Header.Get` for a key in canonical form: the first value stored
under the key, the empty string when there is none. -/
def headerGet (header : List (String × List String)) (key : String) : String :=
  match header.lookup key with
  | some (v :: _) => v
  | _ => ""

/-! ## Data model -/

/-- The constant `websocket.TextMessage`. -/
def TextMessage : Int := 1

/-- The constant `websocket.BinaryMessage`. -/
def BinaryMessage : Int := 2

/-- An inbound request, `*http.Request`: the fields the program reads.
`Header` maps canonical header names to their values in order; `URL` is the
rendering of `req.URL` that `%s` prints, `Path` is `req.URL.Path`. -/
structure Request where
  RemoteAddr : String
  Method : String
  URL : String
  Path : String
  Header : List (String × List String)
  Body : List Nat
  deriving DecidableEq, Repr

/-- The process-wide surroundings: the environment variables the program
reads (empty when unset, as `os.Getenv` reports them) and the result of
`os.Hostname`, a name or an error message. -/
structure Env where
  LOG_HTTP_BODY : String
  LOG_HTTP_HEADERS : String
  SEND_SERVER_HOSTNAME : String
  Hostname : Except String String

/-- Result of one call of `connection.ReadMessage`: a message with its type
and payload, or an error. -/
inductive ReadResult where
  | msg (messageType : Int) (data : List Nat)
  | err (e : String)
  deriving DecidableEq, Repr

/-- An established websocket connection as the program sees it: the results
of the successive calls of `ReadMessage`, and the error, if any, of the
`i`-th call of `WriteMessage` (the introductory message is call 0). -/
structure Conn where
  reads : List ReadResult
  writeErr : Nat → Option String

/-- One pass through the `select` of `serveSSE`: the request context is done,
or the ticker fired at a time whose RFC 3339 rendering is `time`. -/
inductive Select where
  | done
  | tick (time : String)
  deriving DecidableEq, Repr

/-- What the outside world answers while one request is handled: whether the
response writer is an `http.Flusher`, the result of `upgrader.Upgrade` (a
connection or the error of a failed handshake), the value drawn by
`rand.Int` (non-negative, below `2 ^ 63`), and the arms `select` takes. -/
structure Transport where
  flusher : Bool
  upgrade : Except String Conn
  randInt : Nat
  selects : List Select

/-- An argument of a formatted print to standard output, kept unrendered. -/
inductive Arg where
  | str (s : String)
  | bytes (b : List Nat)
  | int (n : Int)
  | strs (l : List String)
  deriving DecidableEq, Repr

/-- The effects the program performs. -/
inductive Effect where
  /-- The call `fmt.Printf(format, args...)`, to standard output. -/
  | printf (format : String) (args : List Arg)
  /-- The call `fmt.Println(s)`, to standard output. -/
  | println (s : String)
  /-- The request body is read to its end into a buffer. -/
  | bodyRead
  /-- The bytes are written to standard output through `hex.Dumper`. -/
  | hexDump (body : List Nat)
  /-- The call `req.Body.Close()`. -/
  | bodyClose
  /-- The call `wr.Header().Add(key, value)`. -/
  | headerAdd (key value : String)
  /-- The call `wr.Header().Set(key, value)`. -/
  | headerSet (key value : String)
  /-- The call `wr.WriteHeader(code)`. -/
  | writeHeader (code : Nat)
  /-- The call `fmt.Fprintf(wr, format, args...)`, to the response. -/
  | fprintf (format : String) (args : List String)
  /-- The text is written to the response as it is. -/
  | write (s : String)
  /-- The call `wr.(http.Flusher).Flush()`. -/
  | flush
  /-- The call `http.Error(wr, msg, code)`. -/
  | httpError (msg : String) (code : Nat)
  /-- The call `upgrader.Upgrade(wr, req, nil)`. -/
  | upgrade
  /-- The call `connection.WriteMessage(messageType, data)` and its error. -/
  | wsWrite (messageType : Int) (data : List Nat) (err : Option String)
  /-- The call `connection.ReadMessage()` and its result. -/
  | wsRead (result : ReadResult)
  /-- The call `connection.Close()`. -/
  | wsClose
  deriving DecidableEq, Repr

/-- A run of a function: the effects performed, in order, and whether the
function has returned (it has not when it still waits for the peer). -/
structure Run where
  trace : List Effect
  returned : Bool
  deriving DecidableEq, Repr

/-! ## The program -/

/-- The function `writeRequest`: the successive writes it makes to `w`, a line
break and then the fixed body, made only when the body is not empty. -/
def writeRequest (_req : Request) : List String :=
  let body :=
    "\x7b\"access_token\": \"fake-token\", \"gtins\": [\"999\"], \"changesUntil\": \"2020-12-12T00:00:11.111Z\"\x7d"
  if body.utf8ByteSize > 0 then ["\n", body] else []

/-- The function `writeSSEField`: one line on the response and one log line
for each line of `v`. -/
def writeSSEField (req : Request) (k v : String) : List Effect :=
  (strings.Split v '\n').flatMap fun line =>
    [Effect.fprintf "%s: %s\n" [k, line],
     Effect.printf "%s | sse | %s: %s\n" [Arg.str req.RemoteAddr, Arg.str k, Arg.str line]]

/-- The function `writeSSE`: increments the counter (`*id++`, in Go's `int`),
writes the three fields and the blank line, and flushes.  Returns the new
value of the counter. -/
def writeSSE (req : Request) (id : Int) (event data : String) : Int × List Effect :=
  let id1 := wrapInt (id + 1)
  (id1,
    writeSSEField req "event" event ++ writeSSEField req "data" data ++
      writeSSEField req "id" (strconv.Itoa id1) ++ [Effect.fprintf "\n" [], Effect.flush])

/-- The loop at the end of `serveSSE`: returns when the context is done,
writes a `time` event on each tick. -/
def sseLoop (req : Request) : Int → List Select → Run
  | _, [] => ⟨[], false⟩
  | _, Select.done :: _ => ⟨[], true⟩
  | id, Select.tick t :: rest =>
    let step := writeSSE req id "time" t
    let r := sseLoop req step.1 rest
    ⟨step.2 ++ r.trace, r.returned⟩

/-- The function `serveSSE`. -/
def serveSSE (env : Env) (req : Request) (t : Transport) (sendServerHostname : Bool) : Run :=
  if !t.flusher then
    ⟨[Effect.httpError "Streaming unsupported!" 500], true⟩
  else
    let echo := String.join (writeRequest req)
    let headers :=
      [Effect.headerSet "Content-Type" "text/event-stream",
       Effect.headerSet "Cache-Control" "no-cache",
       Effect.headerSet "Connection" "keep-alive",
       Effect.headerSet "Access-Control-Allow-Origin" "*"]
    let first : Int × List Effect :=
      if sendServerHostname then
        match env.Hostname with
        | Except.ok host => writeSSE req 0 "server" host
        | Except.error _ => (0, [])
      else (0, [])
    let second := writeSSE req first.1 "request" echo
    let r := sseLoop req second.1 t.selects
    ⟨headers ++ first.2 ++ second.2 ++ r.trace, r.returned⟩

/-- The function `serveHTTP`. -/
def serveHTTP (req : Request) (t : Transport) (_sendServerHostname : Bool) : Run :=
  let randomFail := t.randInt % 2 != 0
  let status :=
    if randomFail then [Effect.writeHeader 403, Effect.println "return 403"]
    else [Effect.println "return 200", Effect.writeHeader 200]
  ⟨[Effect.headerAdd "Content-Type" "application/json"] ++ status ++
    (writeRequest req).map Effect.write, true⟩

/-- The echo loop of `serveWebSocket`, from the `i`-th call of `WriteMessage`
on: the effects performed and the error that ended the loop, `none` while the
loop still waits in `ReadMessage`. -/
def echoLoop (req : Request) (writeErr : Nat → Option String) :
    Nat → List ReadResult → List Effect × Option String
  | _, [] => ([], none)
  | _, ReadResult.err e :: _ => ([Effect.wsRead (ReadResult.err e)], some e)
  | i, ReadResult.msg messageType message :: rest =>
    let log :=
      if messageType = TextMessage then
        Effect.printf "%s | txt | %s\n" [Arg.str req.RemoteAddr, Arg.bytes message]
      else
        Effect.printf "%s | bin | %d byte(s)\n" [Arg.str req.RemoteAddr, Arg.int message.length]
    match writeErr i with
    | some e =>
      ([Effect.wsRead (ReadResult.msg messageType message), log,
        Effect.wsWrite messageType message (some e)], some e)
    | none =>
      let r := echoLoop req writeErr (i + 1) rest
      (Effect.wsRead (ReadResult.msg messageType message) :: log ::
        Effect.wsWrite messageType message none :: r.1, r.2)

/-- The introductory message of `serveWebSocket`. -/
def introMessage (env : Env) (sendServerHostname : Bool) : List Nat :=
  if sendServerHostname then
    match env.Hostname with
    | Except.ok host => bytesOf (fmt.Sprintf "Request served by %s" [host])
    | Except.error e => bytesOf (fmt.Sprintf "Server hostname unknown: %s" [e])
  else []

/-- The function `serveWebSocket`. -/
def serveWebSocket (env : Env) (req : Request) (t : Transport) (sendServerHostname : Bool) :
    Run :=
  match t.upgrade with
  | Except.error e =>
    ⟨[Effect.upgrade, Effect.printf "%s | %s\n" [Arg.str req.RemoteAddr, Arg.str e]], true⟩
  | Except.ok connection =>
    let message := introMessage env sendServerHostname
    let opened :=
      [Effect.upgrade,
       Effect.printf "%s | upgraded to websocket\n" [Arg.str req.RemoteAddr],
       Effect.wsWrite TextMessage message (connection.writeErr 0)]
    let loop : List Effect × Option String :=
      match connection.writeErr 0 with
      | some e => ([], some e)
      | none => echoLoop req connection.writeErr 1 connection.reads
    match loop.2 with
    | some e =>
      ⟨opened ++ loop.1 ++
        [Effect.printf "%s | %s\n" [Arg.str req.RemoteAddr, Arg.str e], Effect.wsClose], true⟩
    | none => ⟨opened ++ loop.1, false⟩

/-- The disclosure flag `sendServerHostname` computed by `handler`. -/
def sendServerHostname (env : Env) (req : Request) : Bool :=
  let v := headerGet req.Header "X-Send-Server-Hostname"
  let sendServerHostnameString := if v ≠ "" then v else env.SEND_SERVER_HOSTNAME
  !strings.EqualFold sendServerHostnameString "false"

/-- The logging with which `handler` starts.  The headers are logged in the
order of the list `Header` (Go leaves the order of a map iteration open). -/
def logRequest (env : Env) (req : Request) : List Effect :=
  let line :=
    if env.LOG_HTTP_BODY ≠ "" ∨ env.LOG_HTTP_HEADERS ≠ "" then
      Effect.printf "--------  %s | %s %s\n"
        [Arg.str req.RemoteAddr, Arg.str req.Method, Arg.str req.URL]
    else
      Effect.printf "%s | %s %s\n" [Arg.str req.RemoteAddr, Arg.str req.Method, Arg.str req.URL]
  let headers :=
    if env.LOG_HTTP_HEADERS ≠ "" then
      Effect.printf "Headers\n" [] ::
        req.Header.map fun kv => Effect.printf "%q : %q\n" [Arg.str kv.1, Arg.strs kv.2]
    else []
  let body :=
    if env.LOG_HTTP_BODY ≠ "" then
      [Effect.bodyRead] ++ (if req.Body.length ≠ 0 then [Effect.hexDump req.Body] else []) ++
        [Effect.bodyClose]
    else []
  line :: headers ++ body

/-- The function `handler`.  The page `websocketHTML` is a constant of the
program declared in another file. -/
def handler (websocketHTML : String) (env : Env) (req : Request) (t : Transport) : Run :=
  let disclose := sendServerHostname env req
  let r : Run :=
    if IsWebSocketUpgrade req.Header then
      serveWebSocket env req t disclose
    else if req.Path = "/.ws" then
      ⟨[Effect.headerAdd "Content-Type" "text/html", Effect.writeHeader 200,
        Effect.write websocketHTML], true⟩
    else if req.Path = "/.sse" then
      serveSSE env req t disclose
    else
      serveHTTP req t disclose
  ⟨logRequest env req ++ r.trace ++ (if r.returned then [Effect.bodyClose] else []), r.returned⟩

/-! ## Observations on a trace -/

/-- The text an effect puts on the response, if it puts any. -/
def Effect.rendered : Effect → Option String
  | Effect.fprintf format args => some (fmt.Sprintf format args)
  | Effect.write s => some s
  | _ => none

/-- The successive pieces of text written to the response. -/
def wire (trace : List Effect) : List String := trace.filterMap Effect.rendered

/-- The value of field `k` an effect writes, when the effect is the write of
one line of that field by `writeSSEField`. -/
def Effect.fieldValue (k : String) : Effect → Option String
  | Effect.fprintf format [key, v] => if format = "%s: %s\n" ∧ key = k then some v else none
  | _ => none

/-- The values of the lines of field `k` on the stream, in order. -/
def fieldsOf (k : String) (trace : List Effect) : List String :=
  trace.filterMap (Effect.fieldValue k)

/-- The event labels on the stream, in order. -/
def labelsOf (trace : List Effect) : List String := fieldsOf "event" trace

/-- The event ids on the stream, in order. -/
def idsOf (trace : List Effect) : List String := fieldsOf "id" trace

/-- The status codes written. -/
def statusOf (trace : List Effect) : List Nat :=
  trace.filterMap fun e => match e with
    | Effect.writeHeader code => some code
    | _ => none

/-- The response headers added or set, as pairs. -/
def headersOf (trace : List Effect) : List (String × String) :=
  trace.filterMap fun e => match e with
    | Effect.headerAdd k v => some (k, v)
    | Effect.headerSet k v => some (k, v)
    | _ => none

/-- The effects on standard output. -/
def stdoutOf (trace : List Effect) : List Effect :=
  trace.filter fun e => match e with
    | Effect.printf _ _ => true
    | Effect.println _ => true
    | Effect.hexDump _ => true
    | _ => false

/-- The reads and writes on the websocket connection. -/
def wsEvents (trace : List Effect) : List Effect :=
  trace.filter fun e => match e with
    | Effect.wsWrite _ _ _ => true
    | Effect.wsRead _ => true
    | _ => false

/-- The messages handed to `WriteMessage`, in order. -/
def wsWritten (trace : List Effect) : List (Int × List Nat) :=
  trace.filterMap fun e => match e with
    | Effect.wsWrite messageType data _ => some (messageType, data)
    | _ => none

/-- The messages `ReadMessage` returned without error, in order. -/
def wsReceived (trace : List Effect) : List (Int × List Nat) :=
  trace.filterMap fun e => match e with
    | Effect.wsRead (ReadResult.msg messageType data) => some (messageType, data)
    | _ => none

/-! ## The specification's wording, for comparison with the code -/

/-- The four responders of the specification's classifier. -/
inductive Responder where
  | Duplex
  | StaticPage
  | PushStream
  | Plain
  deriving DecidableEq, Repr

/-- The precedence list of the specification: the predicates of the
classifier, in order, each with its responder. -/
def classifierRules : List ((Request → Bool) × Responder) :=
  [(fun req => IsWebSocketUpgrade req.Header, Responder.Duplex),
   (fun req => req.Path = "/.ws", Responder.StaticPage),
   (fun req => req.Path = "/.sse", Responder.PushStream)]

/-- The classifier of the specification: the responder of the first rule the
request satisfies, the plain responder when it satisfies none. -/
def classify (req : Request) : Responder :=
  match classifierRules.find? (fun rule => rule.1 req) with
  | some rule => rule.2
  | none => Responder.Plain

/-- What each responder of the classifier stands for in the program. -/
def respond (websocketHTML : String) (env : Env) (req : Request) (t : Transport) :
    Responder → Run
  | Responder.Duplex => serveWebSocket env req t (sendServerHostname env req)
  | Responder.StaticPage =>
    ⟨[Effect.headerAdd "Content-Type" "text/html", Effect.writeHeader 200,
      Effect.write websocketHTML], true⟩
  | Responder.PushStream => serveSSE env req t (sendServerHostname env req)
  | Responder.Plain => serveHTTP req t (sendServerHostname env req)

/-- The run of `handler` around the run `r` of a responder: the request log
first, the deferred close of the body once the responder has returned. -/
def around (env : Env) (req : Request) (r : Run) : Run :=
  ⟨logRequest env req ++ r.trace ++ (if r.returned then [Effect.bodyClose] else []),
    r.returned⟩

/-- The wire encoding of one event as the specification words it: the line
`event: label`, one line `data: line` per line of the data, the line `id: n`
and an empty line. -/
def eventWireSpec (label data : String) (id : Int) : String :=
  "event: " ++ label ++ "\n" ++
    String.join ((strings.Split data '\n').map fun line => "data: " ++ line ++ "\n") ++
    "id: " ++ strconv.Itoa id ++ "\n" ++ "\n"

/-- The spellings of the literal `false` up to case: five runes, the first
`f` or `F`, the second `a` or `A`, the third `l` or `L`, the fourth `s`, `S`
or the long s U+017F, the fifth `e` or `E`. -/
def foldsToFalse (s : String) : Bool :=
  match s.data with
  | [c1, c2, c3, c4, c5] =>
    (c1 = 'f' || c1 = 'F') && (c2 = 'a' || c2 = 'A') && (c3 = 'l' || c3 = 'L') &&
      (c4 = 's' || c4 = 'S' || c4 = Char.ofNat 0x17F) && (c5 = 'e' || c5 = 'E')
  | _ => false

/-- The host name a responder discloses: the name `os.Hostname` returns, when
disclosure is enabled and the lookup succeeds. -/
def disclosedHost (env : Env) (sendServerHostname : Bool) : Option String :=
  if sendServerHostname then
    match env.Hostname with
    | Except.ok host => some host
    | Except.error _ => none
  else none

/-- The ticks `select` delivers before the context is seen done. -/
def ticksBeforeDone : List Select → List String
  | [] => []
  | Select.done :: _ => []
  | Select.tick time :: rest => time :: ticksBeforeDone rest

/-- The events of one stream in the order of the specification, each a label
and its data: the `server` event when the host name is disclosed, the
`request` event, one `time` event per tick.  No event on a transport that
cannot flush. -/
def streamEvents (env : Env) (req : Request) (t : Transport) (sendServerHostname : Bool) :
    List (String × String) :=
  if !t.flusher then []
  else
    (match disclosedHost env sendServerHostname with
      | some host => [("server", host)]
      | none => []) ++
    [("request", String.join (writeRequest req))] ++
    (ticksBeforeDone t.selects).map fun time => ("time", time)

/-- The effects of writing the events of a list one after the other, the
counter standing at `id` before the first. -/
def writeEvents (req : Request) : Int → List (String × String) → List Effect
  | _, [] => []
  | id, e :: rest =>
    (writeSSE req id e.1 e.2).2 ++ writeEvents req (writeSSE req id e.1 e.2).1 rest

/-- The response headers of a stream, as the specification lists them: the
event-stream content type, no caching, keep-alive, any origin. -/
def streamHeaders : List Effect :=
  [Effect.headerSet "Content-Type" "text/event-stream",
   Effect.headerSet "Cache-Control" "no-cache",
   Effect.headerSet "Connection" "keep-alive",
   Effect.headerSet "Access-Control-Allow-Origin" "*"]

/-- The reads and writes of an echo loop that receives the messages of a list
and echoes each without error. -/
def echoEvents (msgs : List (Int × List Nat)) : List Effect :=
  msgs.flatMap fun m =>
    [Effect.wsRead (ReadResult.msg m.1 m.2), Effect.wsWrite m.1 m.2 none]

/-- The results of `ReadMessage` for the messages of a list, all read without
error. -/
def readsOf (msgs : List (Int × List Nat)) : List ReadResult :=
  msgs.map fun m => ReadResult.msg m.1 m.2

/-! ## Sample inputs -/

/-- Surroundings with no variable set and the host name `host-1`. -/
def sampleEnv : Env := Env.mk "" "" "" (Except.ok "host-1")

/-- A request on the stream path that carries the two upgrade headers without
being a well-formed handshake: its method is POST and it has no key. -/
def upgradeOnStreamPath : Request :=
  Request.mk "10.0.0.1:4000" "POST" "/.sse" "/.sse"
    [("Connection", ["Upgrade"]), ("Upgrade", ["websocket"])] []

/-- A request on the stream path without upgrade headers. -/
def streamRequest : Request := Request.mk "10.0.0.1:4000" "GET" "/.sse" "/.sse" [] []

/-- A transport on which the handshake fails; one tick, then the client is
gone. -/
def failedHandshake : Transport :=
  Transport.mk true
    (Except.error
      "websocket: the client is not using the websocket protocol: request method is not GET")
    0 [Select.tick "2024-01-01T00:00:00Z", Select.done]

/-- A request for the plain responder. -/
def plainRequest : Request := Request.mk "10.0.0.1:4000" "GET" "/" "/" [] []

/-- A transport whose draw is `n`. -/
def drawing (n : Nat) : Transport := Transport.mk true (Except.error "") n []

/-- A request whose disclosure header is present with an empty value. -/
def emptyDisclosureHeader : Request :=
  Request.mk "10.0.0.1:4000" "GET" "/" "/" [("X-Send-Server-Hostname", [""])] []

/-- A request whose disclosure header is `FALSE`. -/
def upperFalseHeader : Request :=
  Request.mk "10.0.0.1:4000" "GET" "/" "/" [("X-Send-Server-Hostname", ["FALSE"])] []

/-! ## Theorems -/

/-- The first rule a request satisfies, spelled out. -/
theorem classify_eq (req : Request) :
    classify req =
      if IsWebSocketUpgrade req.Header then Responder.Duplex
      else if req.Path = "/.ws" then Responder.StaticPage
      else if req.Path = "/.sse" then Responder.PushStream
      else Responder.Plain := by
  unfold classify classifierRules
  by_cases h1 : IsWebSocketUpgrade req.Header = true
  · simp [List.find?, h1]
  · by_cases h2 : req.Path = "/.ws"
    · simp [List.find?, h1, h2]
    · by_cases h3 : req.Path = "/.sse"
      · simp [List.find?, h1, h2, h3]
      · simp [List.find?, h1, h2, h3]

/-- The run of `handler` is the run of the responder the classifier names,
inside the request log and the deferred close. -/
theorem handler_eq_around (websocketHTML : String) (env : Env) (req : Request)
    (t : Transport) :
    handler websocketHTML env req t =
      around env req (respond websocketHTML env req t (classify req)) := by
  rw [classify_eq]
  unfold handler around
  by_cases h1 : IsWebSocketUpgrade req.Header = true
  · simp [h1, respond]
  · by_cases h2 : req.Path = "/.ws"
    · simp [h1, h2, respond]
    · by_cases h3 : req.Path = "/.sse"
      · simp [h1, h2, h3, respond]
      · simp [h1, h2, h3, respond]

/-- C1: for every request `handler` runs exactly one responder, the one of the
first rule that matches in the order websocket upgrade, path `/.ws` (the
static page with status 200), path `/.sse`, otherwise the plain responder; a
websocket upgrade goes to the duplex responder whatever its path, and the
choice depends on the path and the headers of the request only. -/
theorem handler_selects_first_match (websocketHTML : String) (env : Env) (req : Request)
    (t : Transport) :
    handler websocketHTML env req t =
        around env req (respond websocketHTML env req t (classify req)) ∧
      (classify req =
        if IsWebSocketUpgrade req.Header then Responder.Duplex
        else if req.Path = "/.ws" then Responder.StaticPage
        else if req.Path = "/.sse" then Responder.PushStream
        else Responder.Plain) ∧
      statusOf (respond websocketHTML env req t Responder.StaticPage).trace = [200] ∧
      wire (respond websocketHTML env req t Responder.StaticPage).trace = [websocketHTML] ∧
      (IsWebSocketUpgrade req.Header = true →
        handler websocketHTML env req t =
          around env req (serveWebSocket env req t (sendServerHostname env req))) ∧
      (∀ addr method url body,
        classify (Request.mk addr method url req.Path req.Header body) = classify req) := by
  refine ⟨handler_eq_around websocketHTML env req t, classify_eq req, ?_, ?_, ?_, ?_⟩
  · simp [respond, statusOf]
  · simp [respond, wire, Effect.rendered]
  · intro h
    rw [handler_eq_around, classify_eq, if_pos h]
    rfl
  · intro addr method url body
    rw [classify_eq, classify_eq]

/-- C1, at a request that is a websocket upgrade on the path `/.sse`: it goes
to the duplex responder. -/
theorem handler_selects_first_match_witness :
    IsWebSocketUpgrade
        (Request.mk "10.0.0.1:4000" "GET" "/.sse" "/.sse"
          [("Connection", ["Upgrade"]), ("Upgrade", ["websocket"])] []).Header = true ∧
      handler "" (Env.mk "" "" "" (Except.ok "host-1"))
          (Request.mk "10.0.0.1:4000" "GET" "/.sse" "/.sse"
            [("Connection", ["Upgrade"]), ("Upgrade", ["websocket"])] [])
          (Transport.mk true (Except.error "bad handshake") 0 []) =
        around (Env.mk "" "" "" (Except.ok "host-1"))
          (Request.mk "10.0.0.1:4000" "GET" "/.sse" "/.sse"
            [("Connection", ["Upgrade"]), ("Upgrade", ["websocket"])] [])
          (serveWebSocket (Env.mk "" "" "" (Except.ok "host-1"))
            (Request.mk "10.0.0.1:4000" "GET" "/.sse" "/.sse"
              [("Connection", ["Upgrade"]), ("Upgrade", ["websocket"])] [])
            (Transport.mk true (Except.error "bad handshake") 0 [])
            (sendServerHostname (Env.mk "" "" "" (Except.ok "host-1"))
              (Request.mk "10.0.0.1:4000" "GET" "/.sse" "/.sse"
                [("Connection", ["Upgrade"]), ("Upgrade", ["websocket"])] []))) :=
  ⟨by decide,
    (handler_selects_first_match "" (Env.mk "" "" "" (Except.ok "host-1"))
      (Request.mk "10.0.0.1:4000" "GET" "/.sse" "/.sse"
        [("Connection", ["Upgrade"]), ("Upgrade", ["websocket"])] [])
      (Transport.mk true (Except.error "bad handshake") 0 [])).2.2.2.2.1 (by decide)⟩

theorem runeEqualFold_ascii (n t : Nat) (ht : 0x61 ≤ t ∧ t ≤ 0x7A) (hk : t ≠ 0x6B) (hs : t ≠ 0x73) :
    runeEqualFold n t = decide (n = t ∨ n + 0x20 = t) := by
  unfold runeEqualFold
  by_cases h : t = n
  · simp [h]
  · simp only [h, if_false]
    by_cases hlt : t < n
    · simp only [hlt, if_true]
      by_cases h80 : n < 0x80
      · simp only [h80, if_true]
        simp only [decide_eq_decide]
        omega
      · simp only [h80, if_false]
        have h1 : simpleFold t = t - 0x20 := by
          unfold simpleFold
          split_ifs <;> omega
        have h2 : simpleFold (t - 0x20) = t := by
          unfold simpleFold
          split_ifs <;> omega
        rw [h1]
        have : foldLoop 4 t n (t - 0x20) = t := by
          simp only [foldLoop]
          rw [if_pos (by omega), h2, if_neg (by omega)]
        rw [this]
        simp only [decide_eq_decide]
        omega
    · simp only [hlt, if_false]
      have hn : n < 0x80 := by omega
      have ht80 : t < 0x80 := by omega
      simp only [ht80, if_true, decide_eq_decide]
      omega

theorem runeEqualFold_s (n : Nat) :
    runeEqualFold n 0x73 = decide (n = 0x73 ∨ n = 0x53 ∨ n = 0x17F) := by
  unfold runeEqualFold
  by_cases h : 0x73 = n
  · subst h; decide
  · simp only [h, if_false]
    by_cases hlt : 0x73 < n
    · simp only [hlt, if_true]
      by_cases h80 : n < 0x80
      · simp only [h80, if_true]
        simp only [decide_eq_decide]
        omega
      · simp only [h80, if_false]
        have h1 : simpleFold 0x73 = 0x17F := by decide
        have h2 : simpleFold 0x17F = 0x53 := by decide
        have h3 : simpleFold 0x53 = 0x73 := by decide
        rw [h1]
        by_cases hn : 0x17F < n
        · have : foldLoop 4 0x73 n 0x17F = 0x73 := by
            simp only [foldLoop]
            rw [if_pos ⟨by omega, hn⟩, h2, if_pos ⟨by omega, by omega⟩, h3, if_neg (by omega)]
          rw [this]
          simp only [decide_eq_decide]
          omega
        · have : foldLoop 4 0x73 n 0x17F = 0x17F := by
            simp only [foldLoop]
            rw [if_neg (by omega)]
          rw [this]
          simp only [decide_eq_decide]
          omega
    · simp only [hlt, if_false]
      have ht80 : (0x73 : Nat) < 0x80 := by omega
      simp only [ht80, if_true, decide_eq_decide]
      omega

theorem char_toNat_eq_iff (c d : Char) : c.toNat = d.toNat ↔ c = d := by
  constructor
  · intro h
    rw [← Char.ofNat_toNat c, ← Char.ofNat_toNat d, h]
  · intro h; rw [h]


theorem runeEqualFold_letter (c lower upper : Char)
    (ht : 0x61 ≤ lower.toNat ∧ lower.toNat ≤ 0x7A) (hk : lower.toNat ≠ 0x6B)
    (hs : lower.toNat ≠ 0x73) (hu : upper.toNat + 0x20 = lower.toNat) :
    runeEqualFold c.toNat lower.toNat = (decide (c = lower) || decide (c = upper)) := by
  rw [runeEqualFold_ascii c.toNat lower.toNat ht hk hs]
  have h1 : c.toNat = lower.toNat ↔ c = lower := char_toNat_eq_iff c lower
  have h2 : c.toNat + 0x20 = lower.toNat ↔ c = upper := by
    rw [← char_toNat_eq_iff c upper]
    omega
  rw [← Bool.decide_or, decide_eq_decide, h1, h2]

theorem runeEqualFold_letter_s (c : Char) :
    runeEqualFold c.toNat 0x73 =
      (decide (c = 's') || decide (c = 'S') || decide (c = Char.ofNat 0x17F)) := by
  rw [runeEqualFold_s]
  have h1 : c.toNat = 0x73 ↔ c = 's' := char_toNat_eq_iff c 's'
  have h2 : c.toNat = 0x53 ↔ c = 'S' := char_toNat_eq_iff c 'S'
  have h3 : c.toNat = 0x17F ↔ c = Char.ofNat 0x17F := char_toNat_eq_iff c (Char.ofNat 0x17F)
  rw [← Bool.decide_or, ← Bool.decide_or, decide_eq_decide, h1, h2, h3, or_assoc]

theorem equalFold_false (s : String) : strings.EqualFold s "false" = foldsToFalse s := by
  have hlit : ("false".data.map Char.toNat) =
      ['f'.toNat, 'a'.toNat, 'l'.toNat, 0x73, 'e'.toNat] := by decide
  unfold strings.EqualFold foldsToFalse
  rw [hlit]
  rcases s with ⟨l⟩
  match l with
  | [] => rfl
  | [_] => simp [equalFoldRunes]
  | [_, _] => simp [equalFoldRunes]
  | [_, _, _] => simp [equalFoldRunes]
  | [_, _, _, _] => simp [equalFoldRunes]
  | [c1, c2, c3, c4, c5] =>
    simp only [List.map, equalFoldRunes, Bool.and_true]
    rw [runeEqualFold_letter c1 'f' 'F' (by decide) (by decide) (by decide) (by decide),
      runeEqualFold_letter c2 'a' 'A' (by decide) (by decide) (by decide) (by decide),
      runeEqualFold_letter c3 'l' 'L' (by decide) (by decide) (by decide) (by decide),
      runeEqualFold_letter_s c4,
      runeEqualFold_letter c5 'e' 'E' (by decide) (by decide) (by decide) (by decide)]
    simp only [Bool.and_assoc]
  | _ :: _ :: _ :: _ :: _ :: _ :: _ => simp [equalFoldRunes]

/-- C2, refuted as stated: the request `upgradeOnStreamPath` is on the path
`/.sse` and its upgrade headers are no well-formed handshake, yet `handler`
hands it to the duplex responder, whose handshake fails: the run is the
request log, the handshake, the log of its error and the deferred close; no
event is written, and the run is not that of the push-stream responder. -/
theorem stream_path_upgrade_not_push_stream :
    upgradeOnStreamPath.Path = "/.sse" ∧
      classify upgradeOnStreamPath = Responder.Duplex ∧
      handler "" sampleEnv upgradeOnStreamPath failedHandshake =
        ⟨[Effect.printf "%s | %s %s\n"
            [Arg.str "10.0.0.1:4000", Arg.str "POST", Arg.str "/.sse"],
          Effect.upgrade,
          Effect.printf "%s | %s\n"
            [Arg.str "10.0.0.1:4000",
             Arg.str
              "websocket: the client is not using the websocket protocol: request method is not GET"],
          Effect.bodyClose], true⟩ ∧
      labelsOf (handler "" sampleEnv upgradeOnStreamPath failedHandshake).trace = [] ∧
      handler "" sampleEnv upgradeOnStreamPath failedHandshake ≠
        around sampleEnv upgradeOnStreamPath
          (serveSSE sampleEnv upgradeOnStreamPath failedHandshake
            (sendServerHostname sampleEnv upgradeOnStreamPath)) := by
  decide

/-- C2, amended: a request on the path `/.sse` is answered by the push-stream
responder exactly when it is no websocket upgrade, and then by no other
responder; when its `Connection` and `Upgrade` headers make it a websocket
upgrade it is handed to the duplex responder, and if the handshake then fails
the run is the request log, the handshake, the log of its error and the
deferred close: nothing falls through to the path checks. -/
theorem stream_path_routing (websocketHTML : String) (env : Env) (req : Request)
    (t : Transport) (hpath : req.Path = "/.sse") :
    (IsWebSocketUpgrade req.Header = false →
      classify req = Responder.PushStream ∧
      handler websocketHTML env req t =
        around env req (serveSSE env req t (sendServerHostname env req))) ∧
    (IsWebSocketUpgrade req.Header = true →
      classify req = Responder.Duplex ∧
      handler websocketHTML env req t =
        around env req (serveWebSocket env req t (sendServerHostname env req)) ∧
      ∀ e, t.upgrade = Except.error e →
        handler websocketHTML env req t =
          ⟨logRequest env req ++
            [Effect.upgrade, Effect.printf "%s | %s\n" [Arg.str req.RemoteAddr, Arg.str e],
              Effect.bodyClose], true⟩) := by
  have hws : req.Path ≠ "/.ws" := by rw [hpath]; decide
  constructor
  · intro h
    have hc : classify req = Responder.PushStream := by
      rw [classify_eq]; simp [h, hws, hpath]
    refine ⟨hc, ?_⟩
    rw [handler_eq_around, hc]
    rfl
  · intro h
    have hc : classify req = Responder.Duplex := by
      rw [classify_eq]; simp [h]
    refine ⟨hc, ?_, ?_⟩
    · rw [handler_eq_around, hc]
      rfl
    · intro e he
      rw [handler_eq_around, hc]
      simp [respond, serveWebSocket, he, around]

/-- C2, amended, at `streamRequest`: no upgrade headers, the push-stream
responder answers. -/
theorem stream_path_routing_witness :
    streamRequest.Path = "/.sse" ∧ IsWebSocketUpgrade streamRequest.Header = false ∧
      handler "" sampleEnv streamRequest failedHandshake =
        around sampleEnv streamRequest
          (serveSSE sampleEnv streamRequest failedHandshake
            (sendServerHostname sampleEnv streamRequest)) :=
  ⟨by decide, by decide,
    ((stream_path_routing "" sampleEnv streamRequest failedHandshake (by decide)).1
      (by decide)).2⟩

/-- C7, refuted as stated: with the default `false`, a request whose
disclosure header is given with an empty value is not disclosed to, although
the header value differs from `false`: a header that is given does not always
override the default. -/
theorem empty_header_does_not_override :
    emptyDisclosureHeader.Header.lookup "X-Send-Server-Hostname" = some [""] ∧
      strings.EqualFold "" "false" = false ∧
      sendServerHostname (Env.mk "" "" "false" (Except.ok "host-1")) emptyDisclosureHeader =
        false ∧
      ¬ (∀ (env : Env) (req : Request) (h : String) (more : List String),
          req.Header.lookup "X-Send-Server-Hostname" = some (h :: more) →
            sendServerHostname env req = !strings.EqualFold h "false") := by
  refine ⟨by decide, by decide, by decide, ?_⟩
  intro hall
  have h := hall (Env.mk "" "" "false" (Except.ok "host-1")) emptyDisclosureHeader "" []
    (by decide)
  revert h
  decide

/-- C7, amended: the disclosure flag is false exactly when the effective value
is a spelling of `false` up to case, where the effective value is the first
value of the header `X-Send-Server-Hostname` when that value is not empty and
the default `SEND_SERVER_HOSTNAME` otherwise (header absent, or given with an
empty value); every other effective value, the empty string included, gives
true.  So a non-empty header value decides alone, whatever the default. -/
theorem sendServerHostname_spec (env : Env) (req : Request) :
    (sendServerHostname env req =
      !foldsToFalse
        (if headerGet req.Header "X-Send-Server-Hostname" ≠ "" then
          headerGet req.Header "X-Send-Server-Hostname"
        else env.SEND_SERVER_HOSTNAME)) ∧
    (headerGet req.Header "X-Send-Server-Hostname" ≠ "" →
      sendServerHostname env req =
        !foldsToFalse (headerGet req.Header "X-Send-Server-Hostname")) ∧
    (headerGet req.Header "X-Send-Server-Hostname" = "" →
      sendServerHostname env req = !foldsToFalse env.SEND_SERVER_HOSTNAME) ∧
    (headerGet req.Header "X-Send-Server-Hostname" = "" → env.SEND_SERVER_HOSTNAME = "" →
      sendServerHostname env req = true) ∧
    (∀ s, foldsToFalse s = strings.EqualFold s "false") := by
  have key : sendServerHostname env req =
      !foldsToFalse
        (if headerGet req.Header "X-Send-Server-Hostname" ≠ "" then
          headerGet req.Header "X-Send-Server-Hostname"
        else env.SEND_SERVER_HOSTNAME) := by
    unfold sendServerHostname
    simp only [equalFold_false]
  refine ⟨key, ?_, ?_, ?_, fun s => (equalFold_false s).symm⟩
  · intro h
    rw [key, if_pos h]
  · intro h
    rw [key, if_neg (by simp [h])]
  · intro h hd
    rw [key, if_neg (by simp [h]), hd]
    rfl

/-- C7, amended, at a request whose header is `FALSE` while the default is
`true`: the header decides, the flag is false. -/
theorem sendServerHostname_spec_witness :
    headerGet upperFalseHeader.Header "X-Send-Server-Hostname" ≠ "" ∧
      sendServerHostname (Env.mk "" "" "true" (Except.ok "host-1")) upperFalseHeader =
        !foldsToFalse (headerGet upperFalseHeader.Header "X-Send-Server-Hostname") ∧
      sendServerHostname (Env.mk "" "" "true" (Except.ok "host-1")) upperFalseHeader = false :=
  ⟨by decide,
    (sendServerHostname_spec (Env.mk "" "" "true" (Except.ok "host-1")) upperFalseHeader).2.1
      (by decide),
    by decide⟩

theorem splitChars_exists_cons (sep : Char) (l : List Char) :
    ∃ p ps, splitChars sep l = p :: ps := by
  induction l with
  | nil => exact ⟨[], [], rfl⟩
  | cons c cs ih =>
    obtain ⟨p, ps, h⟩ := ih
    by_cases hc : c = sep
    · exact ⟨[], p :: ps, by simp [splitChars, hc, h]⟩
    · exact ⟨c :: p, ps, by simp [splitChars, hc, h]⟩

theorem splitChars_length (sep : Char) (l : List Char) :
    (splitChars sep l).length = l.count sep + 1 := by
  induction l with
  | nil => rfl
  | cons c cs ih =>
    obtain ⟨p, ps, h⟩ := splitChars_exists_cons sep cs
    by_cases hc : c = sep
    · simp [splitChars, hc, ih]
    · rw [h] at ih
      have hc2 : ¬ (c == sep) = true := by simpa using hc
      simp [splitChars, hc, h, List.count_cons, hc2]
      simpa using ih

theorem intercalate_splitChars (sep : Char) (l : List Char) :
    [sep].intercalate (splitChars sep l) = l := by
  induction l with
  | nil => rfl
  | cons c cs ih =>
    obtain ⟨p, ps, h⟩ := splitChars_exists_cons sep cs
    rw [h] at ih
    by_cases hc : c = sep
    · simp only [splitChars, hc, if_true, h]
      cases ps with
      | nil => simpa [List.intercalate, List.intersperse] using ih
      | cons q qs => simpa [List.intercalate, List.intersperse] using ih
    · simp only [splitChars, hc, if_false, h]
      cases ps with
      | nil => simpa [List.intercalate, List.intersperse] using ih
      | cons q qs => simpa [List.intercalate, List.intersperse] using ih

theorem splitChars_of_not_mem (sep : Char) (l : List Char) (h : sep ∉ l) :
    splitChars sep l = [l] := by
  induction l with
  | nil => rfl
  | cons c cs ih =>
    have hc : c ≠ sep := fun e => h (by simp [e])
    have hcs : sep ∉ cs := fun e => h (by simp [e])
    simp [splitChars, hc, ih hcs]

theorem Split_length (s : String) (sep : Char) :
    (strings.Split s sep).length = strings.Count s sep + 1 := by
  simp [strings.Split, strings.Count, splitChars_length]

theorem Join_Split (s : String) (sep : Char) :
    strings.Join (strings.Split s sep) sep = s := by
  unfold strings.Join strings.Split
  have : (List.map String.data (List.map String.mk (splitChars sep s.data))) =
      splitChars sep s.data := by
    rw [List.map_map]
    exact List.map_id _
  rw [this, intercalate_splitChars]

theorem Split_of_not_mem (s : String) (sep : Char) (h : sep ∉ s.data) :
    strings.Split s sep = [s] := by
  simp [strings.Split, splitChars_of_not_mem sep s.data h]

theorem Sprintf_field (k v : String) :
    fmt.Sprintf "%s: %s\n" [k, v] = k ++ ": " ++ v ++ "\n" := by
  have hf : "%s: %s\n".data = ['%', 's', ':', ' ', '%', 's', '\n'] := rfl
  apply String.ext
  simp [fmt.Sprintf, hf, sprintfChars, String.data_append]

theorem digitChar_ne_newline (n : Nat) : Nat.digitChar (n % 10) ≠ '\n' := by
  have h : n % 10 < 10 := Nat.mod_lt _ (by decide)
  generalize n % 10 = m at h
  interval_cases m <;> decide

theorem toDigitsCore_no_newline (fuel : Nat) :
    ∀ (n : Nat) (ds : List Char), '\n' ∉ ds → '\n' ∉ Nat.toDigitsCore 10 fuel n ds := by
  induction fuel with
  | zero => intro n ds h; simpa [Nat.toDigitsCore] using h
  | succ f ih =>
    intro n ds h
    have hd : '\n' ∉ Nat.digitChar (n % 10) :: ds := by
      intro hmem
      rcases List.mem_cons.mp hmem with h1 | h1
      · exact digitChar_ne_newline _ h1.symm
      · exact h h1
    simp only [Nat.toDigitsCore]
    split_ifs
    · exact hd
    · exact ih _ _ hd

theorem Itoa_no_newline (i : Int) : '\n' ∉ (strconv.Itoa i).data := by
  unfold strconv.Itoa
  cases i with
  | ofNat m =>
    show '\n' ∉ (Nat.toDigits 10 m).asString.data
    exact toDigitsCore_no_newline _ _ _ (by simp)
  | negSucc m =>
    show '\n' ∉ ("-" ++ (Nat.toDigits 10 (m + 1)).asString).data
    rw [String.data_append]
    intro h
    rcases List.mem_append.mp h with h1 | h1
    · revert h1; decide
    · exact toDigitsCore_no_newline _ _ _ (by simp) h1

theorem wire_append (a b : List Effect) : wire (a ++ b) = wire a ++ wire b := by
  simp [wire, List.filterMap_append]

theorem fieldsOf_append (k : String) (a b : List Effect) :
    fieldsOf k (a ++ b) = fieldsOf k a ++ fieldsOf k b := by
  simp [fieldsOf, List.filterMap_append]

theorem wire_writeSSEField (req : Request) (k v : String) :
    wire (writeSSEField req k v) =
      (strings.Split v '\n').map fun line => k ++ ": " ++ line ++ "\n" := by
  unfold writeSSEField
  induction strings.Split v '\n' with
  | nil => rfl
  | cons l ls ih =>
    rw [List.flatMap_cons, wire_append, ih]
    simp [wire, Effect.rendered, Sprintf_field]

theorem fieldsOf_writeSSEField (req : Request) (k k2 v : String) :
    fieldsOf k2 (writeSSEField req k v) = if k = k2 then strings.Split v '\n' else [] := by
  unfold writeSSEField
  induction strings.Split v '\n' with
  | nil => simp [fieldsOf]
  | cons l ls ih =>
    rw [List.flatMap_cons, fieldsOf_append, ih]
    by_cases hk : k = k2
    · simp [fieldsOf, Effect.fieldValue, hk]
    · simp [fieldsOf, Effect.fieldValue, hk]

theorem fieldsOf_tail (k : String) :
    fieldsOf k [Effect.fprintf "\n" [], Effect.flush] = [] := by
  simp [fieldsOf, Effect.fieldValue]

theorem wrapInt_wrapInt_add (a b : Int) : wrapInt (wrapInt a + b) = wrapInt (a + b) := by
  unfold wrapInt
  omega

theorem wrapInt_of_range (x : Int) (hlo : -2 ^ 63 ≤ x) (hhi : x < 2 ^ 63) : wrapInt x = x := by
  unfold wrapInt
  omega

theorem wire_writeSSE (req : Request) (n : Int) (label data : String) :
    wire (writeSSE req n label data).2 =
      ((strings.Split label '\n').map fun line => "event: " ++ line ++ "\n") ++
      ((strings.Split data '\n').map fun line => "data: " ++ line ++ "\n") ++
      ["id: " ++ strconv.Itoa (wrapInt (n + 1)) ++ "\n", "\n"] := by
  unfold writeSSE
  simp only [wire_append, wire_writeSSEField]
  rw [Split_of_not_mem _ _ (Itoa_no_newline (wrapInt (n + 1)))]
  have : fmt.Sprintf "\n" [] = "\n" := by decide
  simp [wire, Effect.rendered, this]

theorem fieldsOf_writeSSE (req : Request) (n : Int) (label data k : String) :
    fieldsOf k (writeSSE req n label data).2 =
      (if "event" = k then strings.Split label '\n' else []) ++
      (if "data" = k then strings.Split data '\n' else []) ++
      (if "id" = k then [strconv.Itoa (wrapInt (n + 1))] else []) := by
  unfold writeSSE
  simp only [fieldsOf_append, fieldsOf_writeSSEField, fieldsOf_tail, List.append_nil]
  rw [Split_of_not_mem _ _ (Itoa_no_newline (wrapInt (n + 1)))]

/-- C4, refuted as stated, at two inputs.  For the label `a`, line break, `b`,
`writeSSE` does not write the line `event: ` followed by the label; it splits
the label like the data and writes the two lines `event: a` and `event: b`.
For the counter value `2 ^ 63 - 1`, the largest `int`, the increment wraps:
the counter is left at `-2 ^ 63` and the line written is
`id: -9223372036854775808`, not `id: ` followed by `2 ^ 63`. -/
theorem writeSSE_not_as_stated :
    (wire (writeSSE streamRequest 0 "a\nb" "x").2 =
        ["event: a\n", "event: b\n", "data: x\n", "id: 1\n", "\n"] ∧
      eventWireSpec "a\nb" "x" (0 + 1) = "event: a\nb\ndata: x\nid: 1\n\n" ∧
      String.join (wire (writeSSE streamRequest 0 "a\nb" "x").2) ≠
        eventWireSpec "a\nb" "x" (0 + 1)) ∧
    ((writeSSE streamRequest (2 ^ 63 - 1) "time" "x").1 = -2 ^ 63 ∧
      wire (writeSSE streamRequest (2 ^ 63 - 1) "time" "x").2 =
        ["event: time\n", "data: x\n", "id: -9223372036854775808\n", "\n"] ∧
      eventWireSpec "time" "x" (2 ^ 63 - 1 + 1) =
        "event: time\ndata: x\nid: 9223372036854775808\n\n" ∧
      String.join (wire (writeSSE streamRequest (2 ^ 63 - 1) "time" "x").2) ≠
        eventWireSpec "time" "x" (2 ^ 63 - 1 + 1)) := by
  decide

/-- C4, amended: for every event label without line break, every data string
and every counter value `n` of an `int` below the largest one (from `-2 ^ 63`
to `2 ^ 63 - 2`), `writeSSE` leaves the counter at `n + 1` and writes exactly
the line `event: label`, one line `data: line` for each piece of the data
split at its line breaks, in order, the line `id: n+1` and an empty line, and
then flushes.  A data string with `j` line breaks gives `j + 1` data lines,
and joining their payloads with line breaks gives back the data string. -/
theorem writeSSE_encoding (req : Request) (n : Int) (label data : String)
    (hlabel : '\n' ∉ label.data) (hlo : -2 ^ 63 ≤ n) (hhi : n < 2 ^ 63 - 1) :
    (writeSSE req n label data).1 = n + 1 ∧
      wire (writeSSE req n label data).2 =
        ["event: " ++ label ++ "\n"] ++
        ((strings.Split data '\n').map fun line => "data: " ++ line ++ "\n") ++
        ["id: " ++ strconv.Itoa (n + 1) ++ "\n", "\n"] ∧
      String.join (wire (writeSSE req n label data).2) = eventWireSpec label data (n + 1) ∧
      fieldsOf "data" (writeSSE req n label data).2 = strings.Split data '\n' ∧
      (fieldsOf "data" (writeSSE req n label data).2).length =
        strings.Count data '\n' + 1 ∧
      strings.Join (fieldsOf "data" (writeSSE req n label data).2) '\n' = data ∧
      (writeSSE req n label data).2.getLast? = some Effect.flush := by
  have hwrap : wrapInt (n + 1) = n + 1 := wrapInt_of_range _ (by omega) (by omega)
  have hw := wire_writeSSE req n label data
  rw [Split_of_not_mem label '\n' hlabel, hwrap] at hw
  have hf : fieldsOf "data" (writeSSE req n label data).2 = strings.Split data '\n' := by
    rw [fieldsOf_writeSSE]
    simp
  refine ⟨hwrap, ?_, ?_, hf, ?_, ?_, ?_⟩
  · simpa using hw
  · rw [hw]
    apply String.ext
    simp [eventWireSpec, String.data_join, String.data_append]
  · rw [hf, Split_length]
  · rw [hf, Join_Split]
  · simp [writeSSE]

/-- C4, amended, at the label `time`, the two-line data `x`, line break, `y`
and the counter 2. -/
theorem writeSSE_encoding_witness :
    '\n' ∉ "time".data ∧ (-2 ^ 63 : Int) ≤ 2 ∧ (2 : Int) < 2 ^ 63 - 1 ∧
      wire (writeSSE streamRequest 2 "time" "x\ny").2 =
        ["event: time\n", "data: x\n", "data: y\n", "id: 3\n", "\n"] :=
  ⟨by decide, by decide, by decide, by
    have h := (writeSSE_encoding streamRequest 2 "time" "x\ny" (by decide) (by decide)
      (by decide)).2.1
    rw [h]
    decide⟩

theorem sseLoop_trace (req : Request) (sel : List Select) :
    ∀ id : Int, (sseLoop req id sel).trace =
      writeEvents req id ((ticksBeforeDone sel).map fun time => ("time", time)) := by
  induction sel with
  | nil => intro id; rfl
  | cons s rest ih =>
    intro id
    cases s with
    | done => rfl
    | tick time =>
      simp only [sseLoop, ticksBeforeDone, List.map_cons, writeEvents]
      rw [ih]

theorem sseLoop_returned (req : Request) (sel : List Select) :
    ∀ id : Int, (sseLoop req id sel).returned = sel.contains Select.done := by
  induction sel with
  | nil => intro id; rfl
  | cons s rest ih =>
    intro id
    cases s with
    | done => simp [sseLoop]
    | tick time =>
      simp only [sseLoop]
      rw [ih]
      simp

theorem serveSSE_trace (env : Env) (req : Request) (t : Transport) (d : Bool) :
    (serveSSE env req t d).trace =
      (if t.flusher then streamHeaders
        else [Effect.httpError "Streaming unsupported!" 500]) ++
      writeEvents req 0 (streamEvents env req t d) := by
  unfold serveSSE streamEvents
  cases hf : t.flusher with
  | false => simp [writeEvents]
  | true =>
    simp only [Bool.not_true, Bool.false_eq_true, if_false, if_true]
    rw [sseLoop_trace]
    unfold disclosedHost
    cases d with
    | false =>
      simp [streamHeaders, writeEvents]
    | true =>
      cases hh : env.Hostname with
      | error e => simp [streamHeaders, writeEvents]
      | ok host => simp [streamHeaders, writeEvents]

theorem serveSSE_returned (env : Env) (req : Request) (t : Transport) (d : Bool) :
    (serveSSE env req t d).returned = (!t.flusher || t.selects.contains Select.done) := by
  unfold serveSSE
  cases hf : t.flusher with
  | false => simp
  | true =>
    simp only [Bool.not_true, Bool.false_eq_true, if_false]
    rw [sseLoop_returned]
    simp

theorem idsOf_writeEvents (req : Request) (evs : List (String × String)) :
    ∀ id : Int, idsOf (writeEvents req id evs) =
      (List.range evs.length).map
        fun (k : Nat) => strconv.Itoa (wrapInt (id + (k : Int) + 1)) := by
  induction evs with
  | nil => intro id; rfl
  | cons e rest ih =>
    intro id
    simp only [writeEvents, idsOf, fieldsOf_append, List.length_cons]
    rw [fieldsOf_writeSSE]
    have h := ih (writeSSE req id e.1 e.2).1
    simp only [idsOf] at h
    rw [h, List.range_succ_eq_map]
    simp [writeSSE]
    intro k _
    congr 1
    rw [add_assoc (wrapInt (id + 1)), wrapInt_wrapInt_add]
    congr 1
    ring

theorem labelsOf_writeEvents (req : Request) (evs : List (String × String))
    (h : ∀ e ∈ evs, '\n' ∉ e.1.data) :
    ∀ id : Int, labelsOf (writeEvents req id evs) = evs.map fun e => e.1 := by
  induction evs with
  | nil => intro id; rfl
  | cons e rest ih =>
    intro id
    simp only [writeEvents, labelsOf, fieldsOf_append, List.map_cons]
    rw [fieldsOf_writeSSE]
    have h1 := ih (fun x hx => h x (List.mem_cons_of_mem _ hx)) (writeSSE req id e.1 e.2).1
    simp only [labelsOf] at h1
    rw [h1, Split_of_not_mem _ _ (h e (List.mem_cons_self _ _))]
    simp

theorem streamEvents_labels (env : Env) (req : Request) (t : Transport) (d : Bool) :
    ∀ e ∈ streamEvents env req t d, '\n' ∉ e.1.data := by
  intro e he
  unfold streamEvents at he
  split at he
  · simp at he
  · simp only [List.mem_append, List.mem_map, List.mem_singleton] at he
    have hs : '\n' ∉ "server".data := by decide
    have hr : '\n' ∉ "request".data := by decide
    have ht : '\n' ∉ "time".data := by decide
    rcases he with (he | he) | he
    · split at he
      · simp at he; rw [he]; exact hs
      · simp at he
    · rw [he]; exact hr
    · obtain ⟨a, _, ha⟩ := he
      rw [← ha]; exact ht

theorem ticksBeforeDone_script (ticks : List String) (rest : List Select) :
    ticksBeforeDone (ticks.map Select.tick ++ Select.done :: rest) = ticks := by
  induction ticks with
  | nil => rfl
  | cons a as ih => simp [ticksBeforeDone, ih]

theorem fieldsOf_serveSSE (k : String) (env : Env) (req : Request) (t : Transport) (d : Bool) :
    fieldsOf k (serveSSE env req t d).trace =
      fieldsOf k (writeEvents req 0 (streamEvents env req t d)) := by
  rw [serveSSE_trace, fieldsOf_append]
  cases t.flusher <;> simp [fieldsOf, streamHeaders, Effect.fieldValue]

theorem labelsOf_serveSSE (env : Env) (req : Request) (t : Transport) (d : Bool) :
    labelsOf (serveSSE env req t d).trace = (streamEvents env req t d).map fun e => e.1 := by
  unfold labelsOf
  rw [fieldsOf_serveSSE]
  exact labelsOf_writeEvents req _ (streamEvents_labels env req t d) 0

theorem idsOf_serveSSE (env : Env) (req : Request) (t : Transport) (d : Bool) :
    idsOf (serveSSE env req t d).trace =
      (List.range (streamEvents env req t d).length).map
        fun (k : Nat) => strconv.Itoa (wrapInt ((k : Int) + 1)) := by
  unfold idsOf
  rw [fieldsOf_serveSSE]
  have h := idsOf_writeEvents req (streamEvents env req t d) 0
  simp only [idsOf, zero_add] at h
  exact h

theorem idsOf_serveSSE_bounded (env : Env) (req : Request) (t : Transport) (d : Bool)
    (hlen : (streamEvents env req t d).length < 2 ^ 63) :
    idsOf (serveSSE env req t d).trace =
      (List.range (streamEvents env req t d).length).map
        fun (k : Nat) => strconv.Itoa ((k : Int) + 1) := by
  rw [idsOf_serveSSE]
  apply List.map_congr_left
  intro k hk
  have hk2 : k < (streamEvents env req t d).length := List.mem_range.mp hk
  rw [wrapInt_of_range _ (by omega) (by omega)]

/-- C5: in every run of `serveSSE` the events written are those of the
stream, each by one call of `writeSSE` that starts from the counter left by
the event before, the first from 0; each call increments the counter, in
Go's `int`, and writes the new value as the only id of its event.  So the ids
on the stream are 1, 2, 3, ... in this order, one per event label, the `k`-th
event carrying id `k`, as long as the counter has not gone through all of the
`int` range (fewer than `2 ^ 63` events; beyond, the id is `k` wrapped
around).  The first `time` event has id 3 when the host name is disclosed
(after `server` with id 1 and `request` with id 2) and id 2 when disclosure
is disabled. -/
theorem serveSSE_ids (env : Env) (req : Request) (t : Transport) (d : Bool) :
    (serveSSE env req t d).trace =
        (if t.flusher then streamHeaders
          else [Effect.httpError "Streaming unsupported!" 500]) ++
        writeEvents req 0 (streamEvents env req t d) ∧
      (∀ (n : Int) (label data : String),
        (writeSSE req n label data).1 = wrapInt (n + 1) ∧
        idsOf (writeSSE req n label data).2 = [strconv.Itoa (wrapInt (n + 1))] ∧
        (-2 ^ 63 ≤ n → n < 2 ^ 63 - 1 → wrapInt (n + 1) = n + 1)) ∧
      labelsOf (serveSSE env req t d).trace = (streamEvents env req t d).map (fun e => e.1) ∧
      idsOf (serveSSE env req t d).trace =
        (List.range (streamEvents env req t d).length).map
          (fun (k : Nat) => strconv.Itoa (wrapInt ((k : Int) + 1))) ∧
      ((streamEvents env req t d).length < 2 ^ 63 →
        idsOf (serveSSE env req t d).trace =
          (List.range (streamEvents env req t d).length).map
            (fun (k : Nat) => strconv.Itoa ((k : Int) + 1))) ∧
      (labelsOf (serveSSE env req t d).trace).length =
        (idsOf (serveSSE env req t d).trace).length ∧
      ((idsOf (serveSSE env req t d).trace).length < 2 ^ 63 →
        idsOf (serveSSE env req t d).trace =
          (List.range (idsOf (serveSSE env req t d).trace).length).map
            (fun (k : Nat) => strconv.Itoa ((k : Int) + 1))) ∧
      (∀ a b c host up rnd time rest,
        ((labelsOf (serveSSE (Env.mk a b c (Except.ok host)) req
              (Transport.mk true up rnd (Select.tick time :: rest)) true).trace).zip
            (idsOf (serveSSE (Env.mk a b c (Except.ok host)) req
              (Transport.mk true up rnd (Select.tick time :: rest)) true).trace)).take 3 =
          [("server", "1"), ("request", "2"), ("time", "3")]) ∧
      (∀ up rnd time rest,
        ((labelsOf (serveSSE env req
              (Transport.mk true up rnd (Select.tick time :: rest)) false).trace).zip
            (idsOf (serveSSE env req
              (Transport.mk true up rnd (Select.tick time :: rest)) false).trace)).take 2 =
          [("request", "1"), ("time", "2")]) := by
  have h1 : strconv.Itoa (wrapInt 1) = "1" := by decide
  have h2 : strconv.Itoa (wrapInt (1 + 1)) = "2" := by decide
  have h3 : strconv.Itoa (wrapInt (1 + 1 + 1)) = "3" := by decide
  have h2b : strconv.Itoa (wrapInt 2) = "2" := by decide
  have h3b : strconv.Itoa (wrapInt 3) = "3" := by decide
  have hlen : (idsOf (serveSSE env req t d).trace).length =
      (streamEvents env req t d).length := by
    rw [idsOf_serveSSE]
    simp
  refine ⟨serveSSE_trace env req t d, ?_, labelsOf_serveSSE env req t d,
    idsOf_serveSSE env req t d, idsOf_serveSSE_bounded env req t d, ?_, ?_, ?_, ?_⟩
  · intro n label data
    refine ⟨rfl, ?_, fun hlo hhi => wrapInt_of_range _ (by omega) (by omega)⟩
    unfold idsOf
    rw [fieldsOf_writeSSE]
    simp
  · rw [labelsOf_serveSSE, hlen]
    simp
  · intro hb
    rw [hlen] at hb ⊢
    exact idsOf_serveSSE_bounded env req t d hb
  · intro a b c host up rnd time rest
    rw [labelsOf_serveSSE, idsOf_serveSSE]
    simp [streamEvents, disclosedHost, ticksBeforeDone, List.range_succ_eq_map, h1, h2, h3,
      h2b, h3b, List.zip_cons_cons, List.take]
  · intro up rnd time rest
    rw [labelsOf_serveSSE, idsOf_serveSSE]
    simp [streamEvents, disclosedHost, ticksBeforeDone, List.range_succ_eq_map, h1, h2, h2b,
      List.zip_cons_cons, List.take]

/-- C5, at a stream with a disclosed host name and one tick: three events,
fewer than `2 ^ 63`, with the ids 1, 2 and 3. -/
theorem serveSSE_ids_witness :
    (streamEvents sampleEnv streamRequest failedHandshake true).length < 2 ^ 63 ∧
      idsOf (serveSSE sampleEnv streamRequest failedHandshake true).trace = ["1", "2", "3"] :=
  ⟨by decide,
    ((serveSSE_ids sampleEnv streamRequest failedHandshake true).2.2.2.2.1 (by decide)).trans
      (by decide)⟩

theorem dataOf_writeEvents (req : Request) (evs : List (String × String)) :
    ∀ id : Int, fieldsOf "data" (writeEvents req id evs) =
      evs.flatMap fun e => strings.Split e.2 '\n' := by
  induction evs with
  | nil => intro id; rfl
  | cons e rest ih =>
    intro id
    simp only [writeEvents, fieldsOf_append, List.flatMap_cons]
    rw [fieldsOf_writeSSE, ih]
    simp

theorem streamEvents_script (env : Env) (req : Request) (up : Except String Conn) (rnd : Nat)
    (d : Bool) (ticks : List String) (rest : List Select) :
    streamEvents env req
        (Transport.mk true up rnd (ticks.map Select.tick ++ Select.done :: rest)) d =
      (match disclosedHost env d with
        | some host => [("server", host)]
        | none => []) ++
      [("request", String.join (writeRequest req))] ++
      ticks.map fun time => ("time", time) := by
  simp [streamEvents, ticksBeforeDone_script]

/-- C6: on a transport that can flush, when `select` delivers the ticks of a
list and then sees the context done, `serveSSE` returns, and what it wrote is
the stream headers, then the `server` event with the host name as data if and
only if disclosure is enabled and `os.Hostname` succeeded, then one `request`
event, then one `time` event per tick, in order, the data lines being the
lines of the host name, of the echoed request and of the tick times; whatever
`select` would have
delivered after the context was seen done changes nothing.  With disclosure
disabled the first event is `request` with id 1 and there is no `server`
event. -/
theorem serveSSE_sequence (env : Env) (req : Request) (up : Except String Conn) (rnd : Nat)
    (d : Bool) (ticks : List String) (rest : List Select) :
    (serveSSE env req
        (Transport.mk true up rnd (ticks.map Select.tick ++ Select.done :: rest)) d).returned =
        true ∧
      (serveSSE env req
        (Transport.mk true up rnd (ticks.map Select.tick ++ Select.done :: rest)) d).trace =
        streamHeaders ++
        writeEvents req 0
          ((match disclosedHost env d with
            | some host => [("server", host)]
            | none => []) ++
          [("request", String.join (writeRequest req))] ++
          ticks.map fun time => ("time", time)) ∧
      labelsOf (serveSSE env req
        (Transport.mk true up rnd (ticks.map Select.tick ++ Select.done :: rest)) d).trace =
        (match disclosedHost env d with
          | some _ => ["server"]
          | none => []) ++
        ["request"] ++ List.replicate ticks.length "time" ∧
      fieldsOf "data" (serveSSE env req
        (Transport.mk true up rnd (ticks.map Select.tick ++ Select.done :: rest)) d).trace =
        (match disclosedHost env d with
          | some host => strings.Split host '\n'
          | none => []) ++
        strings.Split (String.join (writeRequest req)) '\n' ++
        ticks.flatMap (fun time => strings.Split time '\n') ∧
      (∀ host, disclosedHost env d = some host ↔ (d = true ∧ env.Hostname = Except.ok host)) ∧
      ("server" ∈ labelsOf (serveSSE env req
          (Transport.mk true up rnd (ticks.map Select.tick ++ Select.done :: rest)) d).trace ↔
        (d = true ∧ ∃ host, env.Hostname = Except.ok host)) ∧
      (serveSSE env req
        (Transport.mk true up rnd (ticks.map Select.tick ++ Select.done :: rest)) d).trace =
        (serveSSE env req
          (Transport.mk true up rnd (ticks.map Select.tick ++ [Select.done])) d).trace ∧
      (labelsOf (serveSSE env req
        (Transport.mk true up rnd (ticks.map Select.tick ++ Select.done :: rest))
          false).trace).head? = some "request" ∧
      (idsOf (serveSSE env req
        (Transport.mk true up rnd (ticks.map Select.tick ++ Select.done :: rest))
          false).trace).head? = some "1" ∧
      "server" ∉ labelsOf (serveSSE env req
        (Transport.mk true up rnd (ticks.map Select.tick ++ Select.done :: rest))
          false).trace := by
  have h1 : strconv.Itoa (wrapInt 1) = "1" := by decide
  have hhost : ∀ host, disclosedHost env d = some host ↔
      (d = true ∧ env.Hostname = Except.ok host) := by
    intro host
    unfold disclosedHost
    cases d with
    | false => simp
    | true =>
      cases env.Hostname with
      | error e => simp
      | ok h => simp
  have hlabels : ∀ d2 : Bool, labelsOf (serveSSE env req
        (Transport.mk true up rnd (ticks.map Select.tick ++ Select.done :: rest)) d2).trace =
        (match disclosedHost env d2 with
          | some _ => ["server"]
          | none => []) ++
        ["request"] ++ List.replicate ticks.length "time" := by
    intro d2
    rw [labelsOf_serveSSE, streamEvents_script]
    have hrep : ∀ l : List String,
        List.map (fun e : String × String => e.1) (List.map (fun time => ("time", time)) l) =
          List.replicate l.length "time" := by
      intro l
      induction l with
      | nil => rfl
      | cons a as ih => simp [List.replicate_succ, ih]
    unfold disclosedHost
    cases d2 with
    | false => simp [hrep]
    | true =>
      cases env.Hostname with
      | error e => simp [hrep]
      | ok h => simp [hrep]
  refine ⟨?_, ?_, hlabels d, ?_, hhost, ?_, ?_, ?_, ?_, ?_⟩
  · rw [serveSSE_returned]
    simp
  · rw [serveSSE_trace, streamEvents_script]
    simp
  · rw [fieldsOf_serveSSE, streamEvents_script, dataOf_writeEvents]
    cases disclosedHost env d with
    | none => simp [List.flatMap_map]
    | some host => simp [List.flatMap_map]
  · rw [hlabels d]
    unfold disclosedHost
    cases d with
    | false => simp [List.mem_replicate]
    | true =>
      cases env.Hostname with
      | error e => simp [List.mem_replicate]
      | ok h => simp
  · have h := streamEvents_script env req up rnd d ticks []
    rw [serveSSE_trace, serveSSE_trace, streamEvents_script, h]
  · rw [hlabels false]
    simp [disclosedHost]
  · rw [idsOf_serveSSE, streamEvents_script]
    simp [disclosedHost, List.range_succ_eq_map, h1]
  · rw [hlabels false]
    simp [disclosedHost, List.mem_replicate]

theorem card_odd_range (m : Nat) :
    ((Finset.range (2 * m)).filter fun n => n % 2 = 1).card = m := by
  induction m with
  | zero => rfl
  | succ k ih =>
    have h : 2 * (k + 1) = (2 * k + 1) + 1 := by ring
    rw [h, Finset.range_succ, Finset.range_succ, Finset.filter_insert, Finset.filter_insert]
    have h1 : (2 * k + 1) % 2 = 1 := by omega
    have h0 : ¬ (2 * k) % 2 = 1 := by omega
    rw [if_pos h1, if_neg h0, Finset.card_insert_of_not_mem, ih]
    simp

theorem card_even_range (m : Nat) :
    ((Finset.range (2 * m)).filter fun n => n % 2 = 0).card = m := by
  induction m with
  | zero => rfl
  | succ k ih =>
    have h : 2 * (k + 1) = (2 * k + 1) + 1 := by ring
    rw [h, Finset.range_succ, Finset.range_succ, Finset.filter_insert, Finset.filter_insert]
    have h1 : ¬ (2 * k + 1) % 2 = 0 := by omega
    have h0 : (2 * k) % 2 = 0 := by omega
    rw [if_neg h1, if_pos h0, Finset.card_insert_of_not_mem, ih]
    simp

theorem statusOf_serveHTTP (req : Request) (t : Transport) (d : Bool) :
    statusOf (serveHTTP req t d).trace = [if t.randInt % 2 = 1 then 403 else 200] := by
  unfold serveHTTP
  by_cases h : t.randInt % 2 = 1
  · simp [statusOf, h, List.filterMap_append, List.filterMap_map, List.filterMap]
  · have h0 : t.randInt % 2 = 0 := by omega
    simp [statusOf, h0, List.filterMap_append, List.filterMap_map, List.filterMap]

theorem wire_serveHTTP (req : Request) (t : Transport) (d : Bool) :
    wire (serveHTTP req t d).trace = writeRequest req := by
  unfold serveHTTP
  have hmap : ∀ l : List String, wire (l.map Effect.write) = l := by
    intro l
    induction l with
    | nil => rfl
    | cons a as ih =>
      simp only [wire] at ih
      simp [wire, Effect.rendered, ih]
  by_cases h : t.randInt % 2 = 1
  · simp only [h, wire_append, hmap]
    simp [wire, Effect.rendered]
  · have h0 : t.randInt % 2 = 0 := by omega
    simp only [h0, wire_append, hmap]
    simp [wire, Effect.rendered]

theorem headersOf_serveHTTP (req : Request) (t : Transport) (d : Bool) :
    headersOf (serveHTTP req t d).trace = [("Content-Type", "application/json")] := by
  unfold serveHTTP
  by_cases h : t.randInt % 2 = 1
  · simp [headersOf, h, List.filterMap_append, List.filterMap_map, List.filterMap]
  · have h0 : t.randInt % 2 = 0 := by omega
    simp [headersOf, h0, List.filterMap_append, List.filterMap_map, List.filterMap]

/-- C8: the status `serveHTTP` writes is 403 when the value drawn by
`rand.Int` is odd and 200 when it is even; it is the same for every request,
disclosure flag and transport with the same draw; of the `2 ^ 63` possible
draws exactly `2 ^ 62` give 403 and exactly `2 ^ 62` give 200.  The only
response header is the content type `application/json`, the body is what
`writeRequest` writes, and the function returns. -/
theorem serveHTTP_status (req : Request) (t : Transport) (d : Bool) :
    statusOf (serveHTTP req t d).trace = [if t.randInt % 2 = 1 then 403 else 200] ∧
      (∀ (req2 : Request) (d2 flusher : Bool) (up : Except String Conn) (sel : List Select),
        statusOf (serveHTTP req2 (Transport.mk flusher up t.randInt sel) d2).trace =
          statusOf (serveHTTP req t d).trace) ∧
      ((Finset.range (2 ^ 63)).filter fun n =>
        statusOf (serveHTTP req (Transport.mk t.flusher t.upgrade n t.selects) d).trace =
          [403]).card = 2 ^ 62 ∧
      ((Finset.range (2 ^ 63)).filter fun n =>
        statusOf (serveHTTP req (Transport.mk t.flusher t.upgrade n t.selects) d).trace =
          [200]).card = 2 ^ 62 ∧
      headersOf (serveHTTP req t d).trace = [("Content-Type", "application/json")] ∧
      wire (serveHTTP req t d).trace = writeRequest req ∧
      (serveHTTP req t d).returned = true := by
  refine ⟨statusOf_serveHTTP req t d, ?_, ?_, ?_, ?_, wire_serveHTTP req t d, rfl⟩
  · intro req2 d2 flusher up sel
    rw [statusOf_serveHTTP, statusOf_serveHTTP]
  · have hfilter : ((Finset.range (2 ^ 63)).filter fun n =>
        statusOf (serveHTTP req (Transport.mk t.flusher t.upgrade n t.selects) d).trace =
          [403]) = (Finset.range (2 * 2 ^ 62)).filter fun n => n % 2 = 1 := by
      apply Finset.filter_congr
      intro n _
      rw [statusOf_serveHTTP]
      by_cases h : n % 2 = 1 <;> simp [h]
    rw [hfilter, card_odd_range]
  · have hfilter : ((Finset.range (2 ^ 63)).filter fun n =>
        statusOf (serveHTTP req (Transport.mk t.flusher t.upgrade n t.selects) d).trace =
          [200]) = (Finset.range (2 * 2 ^ 62)).filter fun n => n % 2 = 0 := by
      apply Finset.filter_congr
      intro n _
      rw [statusOf_serveHTTP]
      by_cases h : n % 2 = 1
      · simp [h]
      · have h0 : n % 2 = 0 := by omega
        simp [h0]
    rw [hfilter, card_even_range]
  · exact headersOf_serveHTTP req t d

/-- C10, refuted as stated: when the draw is odd `serveHTTP` prints the line
`return 403`, and when it is even the line `return 200`: the injected 403 is
logged, and the log differs between the two outcomes. -/
theorem serveHTTP_logs_forbidden :
    statusOf (serveHTTP plainRequest (drawing 1) true).trace = [403] ∧
      stdoutOf (serveHTTP plainRequest (drawing 1) true).trace =
        [Effect.println "return 403"] ∧
      stdoutOf (serveHTTP plainRequest (drawing 0) true).trace =
        [Effect.println "return 200"] ∧
      stdoutOf (serveHTTP plainRequest (drawing 1) true).trace ≠
        stdoutOf (serveHTTP plainRequest (drawing 0) true).trace := by
  decide

/-- C10, amended: `serveHTTP` prints exactly one line per request, `return
403` when the injected status is 403 and `return 200` when the status is 200,
so the 403 outcome is logged in the same way as the 200 outcome; it is not
treated as a failure: no error response is made, the function returns, and
the headers and the body written are the same whatever the draw. -/
theorem serveHTTP_log (req : Request) (t : Transport) (d : Bool) :
    stdoutOf (serveHTTP req t d).trace =
        [Effect.println (if t.randInt % 2 = 1 then "return 403" else "return 200")] ∧
      (∀ msg code, Effect.httpError msg code ∉ (serveHTTP req t d).trace) ∧
      (serveHTTP req t d).returned = true ∧
      (∀ (t2 : Transport),
        wire (serveHTTP req t2 d).trace = wire (serveHTTP req t d).trace ∧
        headersOf (serveHTTP req t2 d).trace = headersOf (serveHTTP req t d).trace) := by
  refine ⟨?_, ?_, rfl, ?_⟩
  · unfold serveHTTP
    by_cases h : t.randInt % 2 = 1
    · simp [stdoutOf, h, List.filter_append, List.filter_map, List.filter]
    · have h0 : t.randInt % 2 = 0 := by omega
      simp [stdoutOf, h0, List.filter_append, List.filter_map, List.filter]
  · intro msg code
    unfold serveHTTP
    by_cases h : t.randInt % 2 = 1
    · simp [h]
    · have h0 : t.randInt % 2 = 0 := by omega
      simp [h0]
  · intro t2
    rw [wire_serveHTTP, wire_serveHTTP, headersOf_serveHTTP, headersOf_serveHTTP]
    exact ⟨rfl, rfl⟩

theorem wsEvents_append (a b : List Effect) : wsEvents (a ++ b) = wsEvents a ++ wsEvents b := by
  simp [wsEvents, List.filter_append]

theorem wsWritten_append (a b : List Effect) :
    wsWritten (a ++ b) = wsWritten a ++ wsWritten b := by
  simp [wsWritten, List.filterMap_append]

theorem wsReceived_append (a b : List Effect) :
    wsReceived (a ++ b) = wsReceived a ++ wsReceived b := by
  simp [wsReceived, List.filterMap_append]

theorem echoLoop_written_received (req : Request) (writeErr : Nat → Option String)
    (reads : List ReadResult) :
    ∀ i, wsWritten (echoLoop req writeErr i reads).1 =
      wsReceived (echoLoop req writeErr i reads).1 := by
  induction reads with
  | nil => intro i; rfl
  | cons r rest ih =>
    intro i
    cases r with
    | err e => simp [echoLoop, wsWritten, wsReceived]
    | msg mt m =>
      have h := ih (i + 1)
      simp only [wsWritten, wsReceived] at h
      cases hw : writeErr i with
      | some e =>
        by_cases hmt : mt = TextMessage <;>
          simp [echoLoop, hw, hmt, wsWritten, wsReceived]
      | none =>
        by_cases hmt : mt = TextMessage <;>
          simp [echoLoop, hw, hmt, wsWritten, wsReceived, h]

theorem echoLoop_echoes (req : Request) (writeErr : Nat → Option String)
    (msgs : List (Int × List Nat)) (rest : List ReadResult) :
    ∀ i, (∀ j, i ≤ j → j < i + msgs.length → writeErr j = none) →
      wsEvents (echoLoop req writeErr i (readsOf msgs ++ rest)).1 =
          echoEvents msgs ++ wsEvents (echoLoop req writeErr (i + msgs.length) rest).1 ∧
        (echoLoop req writeErr i (readsOf msgs ++ rest)).2 =
          (echoLoop req writeErr (i + msgs.length) rest).2 := by
  induction msgs with
  | nil => intro i _; simp [readsOf, echoEvents]
  | cons m ms ih =>
    intro i hq
    have hw : writeErr i = none := hq i (Nat.le_refl _) (by simp)
    have hrest := ih (i + 1) (fun j h1 h2 => hq j (by omega) (by simp; omega))
    have hidx : i + 1 + ms.length = i + (m :: ms).length := by simp; omega
    rw [hidx] at hrest
    simp only [readsOf] at hrest
    by_cases hmt : m.1 = TextMessage
    · simp [readsOf, echoLoop, hw, hmt, echoEvents, wsEvents, List.filter] at hrest ⊢
      exact hrest
    · simp [readsOf, echoLoop, hw, hmt, echoEvents, wsEvents, List.filter] at hrest ⊢
      exact hrest

/-- The run of `serveWebSocket` after a successful handshake, in terms of the
outcome of the introductory write and of the echo loop. -/
theorem serveWebSocket_opened (env : Env) (req : Request) (flusher : Bool) (conn : Conn)
    (rnd : Nat) (sel : List Select) (d : Bool) :
    serveWebSocket env req (Transport.mk flusher (Except.ok conn) rnd sel) d =
      match conn.writeErr 0 with
      | some e =>
        ⟨[Effect.upgrade,
          Effect.printf "%s | upgraded to websocket\n" [Arg.str req.RemoteAddr],
          Effect.wsWrite TextMessage (introMessage env d) (some e),
          Effect.printf "%s | %s\n" [Arg.str req.RemoteAddr, Arg.str e], Effect.wsClose], true⟩
      | none =>
        match (echoLoop req conn.writeErr 1 conn.reads).2 with
        | some e =>
          ⟨[Effect.upgrade,
            Effect.printf "%s | upgraded to websocket\n" [Arg.str req.RemoteAddr],
            Effect.wsWrite TextMessage (introMessage env d) none] ++
            (echoLoop req conn.writeErr 1 conn.reads).1 ++
            [Effect.printf "%s | %s\n" [Arg.str req.RemoteAddr, Arg.str e], Effect.wsClose],
            true⟩
        | none =>
          ⟨[Effect.upgrade,
            Effect.printf "%s | upgraded to websocket\n" [Arg.str req.RemoteAddr],
            Effect.wsWrite TextMessage (introMessage env d) none] ++
            (echoLoop req conn.writeErr 1 conn.reads).1, false⟩ := by
  unfold serveWebSocket
  cases hw : conn.writeErr 0 with
  | some e => simp [hw]
  | none => simp only [hw]

theorem serveWebSocket_written_received (env : Env) (req : Request) (flusher : Bool)
    (conn : Conn) (rnd : Nat) (sel : List Select) (d : Bool) :
    (wsWritten
        (serveWebSocket env req (Transport.mk flusher (Except.ok conn) rnd sel) d).trace).tail =
      wsReceived
        (serveWebSocket env req (Transport.mk flusher (Except.ok conn) rnd sel) d).trace := by
  rw [serveWebSocket_opened]
  cases hw : conn.writeErr 0 with
  | some e => simp [wsWritten, wsReceived]
  | none =>
    have h := echoLoop_written_received req conn.writeErr conn.reads 1
    cases hl : (echoLoop req conn.writeErr 1 conn.reads).2 with
    | some e =>
      simp only [wsWritten_append, wsReceived_append]
      rw [h]
      simp [wsWritten, wsReceived]
    | none =>
      simp only [wsWritten_append, wsReceived_append]
      rw [h]
      simp [wsWritten, wsReceived]

theorem wsWritten_wsEvents (trace : List Effect) :
    wsWritten (wsEvents trace) = wsWritten trace := by
  induction trace with
  | nil => rfl
  | cons a as ih =>
    simp only [wsWritten, wsEvents] at ih
    cases a <;> simp [wsWritten, wsEvents, List.filter, ih]

theorem wsWritten_echoEvents (msgs : List (Int × List Nat)) :
    wsWritten (echoEvents msgs) = msgs := by
  induction msgs with
  | nil => rfl
  | cons m ms ih =>
    simp only [wsWritten, echoEvents] at ih
    simp [wsWritten, echoEvents, ih]

theorem echoLoop_pending (req : Request) (writeErr : Nat → Option String) (i : Nat) :
    echoLoop req writeErr i [] = ([], none) := rfl

/-- C3: after a successful handshake, on every connection the messages
`serveWebSocket` hands to `WriteMessage` after the introductory one are
exactly the messages `ReadMessage` returned, with the same type and payload,
in the same order.  When the peer sends the messages of a list and all writes
succeed, the reads and writes on the connection are the introductory write,
then for each message its read followed by its echo, the echo before the next
read; the run then waits for the next message.  A read error ends the run
after the echoes of the messages read before it, a failed echo ends the run
with that echo, a failed introductory write ends it at once; whatever the
peer would have sent afterwards is neither read nor echoed. -/
theorem serveWebSocket_echo (env : Env) (req : Request) (flusher : Bool) (rnd : Nat)
    (sel : List Select) (d : Bool) (msgs : List (Int × List Nat)) (m : Int × List Nat)
    (e : String) (rest : List ReadResult) (writeErr : Nat → Option String) :
    (wsWritten (serveWebSocket env req
        (Transport.mk flusher (Except.ok (Conn.mk rest writeErr)) rnd sel) d).trace).tail =
      wsReceived (serveWebSocket env req
        (Transport.mk flusher (Except.ok (Conn.mk rest writeErr)) rnd sel) d).trace ∧
    (wsEvents (serveWebSocket env req
        (Transport.mk flusher (Except.ok (Conn.mk (readsOf msgs) fun _ => none)) rnd sel)
          d).trace =
        Effect.wsWrite TextMessage (introMessage env d) none :: echoEvents msgs ∧
      wsWritten (serveWebSocket env req
        (Transport.mk flusher (Except.ok (Conn.mk (readsOf msgs) fun _ => none)) rnd sel)
          d).trace = (TextMessage, introMessage env d) :: msgs ∧
      (serveWebSocket env req
        (Transport.mk flusher (Except.ok (Conn.mk (readsOf msgs) fun _ => none)) rnd sel)
          d).returned = false) ∧
    (wsEvents (serveWebSocket env req
        (Transport.mk flusher
          (Except.ok (Conn.mk (readsOf msgs ++ ReadResult.err e :: rest) fun _ => none))
          rnd sel) d).trace =
        Effect.wsWrite TextMessage (introMessage env d) none :: echoEvents msgs ++
          [Effect.wsRead (ReadResult.err e)] ∧
      (serveWebSocket env req
        (Transport.mk flusher
          (Except.ok (Conn.mk (readsOf msgs ++ ReadResult.err e :: rest) fun _ => none))
          rnd sel) d).returned = true) ∧
    (wsEvents (serveWebSocket env req
        (Transport.mk flusher
          (Except.ok (Conn.mk (readsOf msgs ++ ReadResult.msg m.1 m.2 :: rest)
            fun j => if j = msgs.length + 1 then some e else none))
          rnd sel) d).trace =
        Effect.wsWrite TextMessage (introMessage env d) none :: echoEvents msgs ++
          [Effect.wsRead (ReadResult.msg m.1 m.2), Effect.wsWrite m.1 m.2 (some e)] ∧
      (serveWebSocket env req
        (Transport.mk flusher
          (Except.ok (Conn.mk (readsOf msgs ++ ReadResult.msg m.1 m.2 :: rest)
            fun j => if j = msgs.length + 1 then some e else none))
          rnd sel) d).returned = true) ∧
    (wsEvents (serveWebSocket env req
        (Transport.mk flusher (Except.ok (Conn.mk rest fun _ => some e)) rnd sel) d).trace =
        [Effect.wsWrite TextMessage (introMessage env d) (some e)] ∧
      (serveWebSocket env req
        (Transport.mk flusher (Except.ok (Conn.mk rest fun _ => some e)) rnd sel)
          d).returned = true) := by
  have hopened : ∀ l : List Effect,
      wsEvents ([Effect.upgrade,
        Effect.printf "%s | upgraded to websocket\n" [Arg.str req.RemoteAddr],
        Effect.wsWrite TextMessage (introMessage env d) none] ++ l) =
      Effect.wsWrite TextMessage (introMessage env d) none :: wsEvents l := by
    intro l
    simp [wsEvents]
  refine ⟨serveWebSocket_written_received env req flusher _ rnd sel d, ?_, ?_, ?_, ?_⟩
  · have h := echoLoop_echoes req (fun _ => none) msgs [] 1 (fun _ _ _ => rfl)
    rw [List.append_nil, echoLoop_pending] at h
    have hev : wsEvents (echoLoop req (fun _ => none) 1 (readsOf msgs)).1 = echoEvents msgs := by
      simpa [wsEvents] using h.1
    have hrun : serveWebSocket env req
        (Transport.mk flusher (Except.ok (Conn.mk (readsOf msgs) fun _ => none)) rnd sel) d =
        ⟨[Effect.upgrade,
          Effect.printf "%s | upgraded to websocket\n" [Arg.str req.RemoteAddr],
          Effect.wsWrite TextMessage (introMessage env d) none] ++
          (echoLoop req (fun _ => none) 1 (readsOf msgs)).1, false⟩ := by
      rw [serveWebSocket_opened]
      simp only [h.2]
    rw [hrun]
    refine ⟨?_, ?_, rfl⟩
    · rw [hopened, hev]
    · rw [← wsWritten_wsEvents, hopened, hev]
      have hw := wsWritten_echoEvents msgs
      simp only [wsWritten] at hw
      simp [wsWritten, hw]
  · have h := echoLoop_echoes req (fun _ => none) msgs (ReadResult.err e :: rest) 1
      (fun _ _ _ => rfl)
    have hrun : serveWebSocket env req
        (Transport.mk flusher
          (Except.ok (Conn.mk (readsOf msgs ++ ReadResult.err e :: rest) fun _ => none))
          rnd sel) d =
        ⟨[Effect.upgrade,
          Effect.printf "%s | upgraded to websocket\n" [Arg.str req.RemoteAddr],
          Effect.wsWrite TextMessage (introMessage env d) none] ++
          (echoLoop req (fun _ => none) 1 (readsOf msgs ++ ReadResult.err e :: rest)).1 ++
          [Effect.printf "%s | %s\n" [Arg.str req.RemoteAddr, Arg.str e], Effect.wsClose],
          true⟩ := by
      rw [serveWebSocket_opened]
      simp only [h.2, echoLoop]
    rw [hrun]
    refine ⟨?_, rfl⟩
    rw [List.append_assoc, hopened, wsEvents_append, h.1]
    simp [wsEvents, echoLoop]
  · have h := echoLoop_echoes req (fun j => if j = msgs.length + 1 then some e else none) msgs
      (ReadResult.msg m.1 m.2 :: rest) 1
      (fun j h1 h2 => by
        have : j ≠ msgs.length + 1 := by omega
        simp [this])
    have hlast : (echoLoop req (fun j => if j = msgs.length + 1 then some e else none)
        (1 + msgs.length) (ReadResult.msg m.1 m.2 :: rest)).2 = some e := by
      have : 1 + msgs.length = msgs.length + 1 := by omega
      simp [echoLoop, this]
    have hlast1 : wsEvents (echoLoop req (fun j => if j = msgs.length + 1 then some e else none)
        (1 + msgs.length) (ReadResult.msg m.1 m.2 :: rest)).1 =
        [Effect.wsRead (ReadResult.msg m.1 m.2), Effect.wsWrite m.1 m.2 (some e)] := by
      have : 1 + msgs.length = msgs.length + 1 := by omega
      by_cases hmt : m.1 = TextMessage <;> simp [echoLoop, this, wsEvents, hmt]
    have hrun : serveWebSocket env req
        (Transport.mk flusher
          (Except.ok (Conn.mk (readsOf msgs ++ ReadResult.msg m.1 m.2 :: rest)
            fun j => if j = msgs.length + 1 then some e else none))
          rnd sel) d =
        ⟨[Effect.upgrade,
          Effect.printf "%s | upgraded to websocket\n" [Arg.str req.RemoteAddr],
          Effect.wsWrite TextMessage (introMessage env d) none] ++
          (echoLoop req (fun j => if j = msgs.length + 1 then some e else none) 1
            (readsOf msgs ++ ReadResult.msg m.1 m.2 :: rest)).1 ++
          [Effect.printf "%s | %s\n" [Arg.str req.RemoteAddr, Arg.str e], Effect.wsClose],
          true⟩ := by
      rw [serveWebSocket_opened]
      simp only [h.2, hlast]
      simp
    rw [hrun]
    refine ⟨?_, rfl⟩
    rw [List.append_assoc, hopened, wsEvents_append, h.1, hlast1]
    simp [wsEvents]
  · rw [serveWebSocket_opened]
    simp [wsEvents]

theorem Sprintf_served (host : String) :
    fmt.Sprintf "Request served by %s" [host] = "Request served by " ++ host := by
  have hf : "Request served by %s".data = "Request served by ".data ++ ['%', 's'] := rfl
  have hp : "Request served by ".data =
      ['R', 'e', 'q', 'u', 'e', 's', 't', ' ', 's', 'e', 'r', 'v', 'e', 'd', ' ', 'b', 'y', ' '] :=
    rfl
  apply String.ext
  rw [String.data_append]
  simp [fmt.Sprintf, hf, hp, sprintfChars]

theorem Sprintf_unknown (e : String) :
    fmt.Sprintf "Server hostname unknown: %s" [e] = "Server hostname unknown: " ++ e := by
  have hf : "Server hostname unknown: %s".data =
      "Server hostname unknown: ".data ++ ['%', 's'] := rfl
  have hp : "Server hostname unknown: ".data =
      ['S', 'e', 'r', 'v', 'e', 'r', ' ', 'h', 'o', 's', 't', 'n', 'a', 'm', 'e', ' ',
        'u', 'n', 'k', 'n', 'o', 'w', 'n', ':', ' '] := rfl
  apply String.ext
  rw [String.data_append]
  simp [fmt.Sprintf, hf, hp, sprintfChars]

theorem echoLoop_starts_reading (req : Request) (writeErr : Nat → Option String) (i : Nat)
    (reads : List ReadResult) (tail : List Effect)
    (htail : ∀ x ∈ tail, x = Effect.wsClose ∨ ∃ f a, x = Effect.printf f a) :
    ∀ x ∈ (wsEvents ((echoLoop req writeErr i reads).1 ++ tail)).head?,
      ∃ r, x = Effect.wsRead r := by
  have htail0 : wsEvents tail = [] := by
    unfold wsEvents
    rw [List.filter_eq_nil_iff]
    intro x hx
    rcases htail x hx with h | ⟨f, a, h⟩ <;> simp [h]
  intro x hx
  rw [wsEvents_append, htail0, List.append_nil] at hx
  cases reads with
  | nil => simp [echoLoop, wsEvents] at hx
  | cons r rest =>
    cases r with
    | err e =>
      simp [echoLoop, wsEvents] at hx
      exact ⟨_, hx.symm⟩
    | msg mt m =>
      cases hw : writeErr i with
      | some e =>
        simp [echoLoop, hw, wsEvents, List.filter] at hx
        exact ⟨_, hx.symm⟩
      | none =>
        simp [echoLoop, hw, wsEvents, List.filter] at hx
        exact ⟨_, hx.symm⟩

/-- C9: after a successful handshake `serveWebSocket` first logs the upgrade
and writes one text message, the introductory one; whatever it reads or
writes on the connection afterwards starts with a read, and every later write
is the echo of a message read.  The payload of the introductory message is
empty when disclosure is off, whatever `os.Hostname` returns; it is `Request
served by ` followed by the host name when disclosure is on and the lookup
succeeds, and `Server hostname unknown: ` followed by the error when
disclosure is on and the lookup fails.  When the handshake fails nothing is
written on a connection. -/
theorem serveWebSocket_intro (env : Env) (req : Request) (flusher : Bool) (conn : Conn)
    (rnd : Nat) (sel : List Select) (d : Bool) :
    (∃ rest,
      (serveWebSocket env req (Transport.mk flusher (Except.ok conn) rnd sel) d).trace =
          [Effect.upgrade,
            Effect.printf "%s | upgraded to websocket\n" [Arg.str req.RemoteAddr],
            Effect.wsWrite TextMessage (introMessage env d) (conn.writeErr 0)] ++ rest ∧
        wsWritten rest = wsReceived rest ∧
        ∀ x ∈ (wsEvents rest).head?, ∃ r, x = Effect.wsRead r) ∧
      introMessage env false = [] ∧
      (∀ a b c host,
        introMessage (Env.mk a b c (Except.ok host)) true =
          bytesOf ("Request served by " ++ host)) ∧
      (∀ a b c e,
        introMessage (Env.mk a b c (Except.error e)) true =
          bytesOf ("Server hostname unknown: " ++ e)) ∧
      (∀ e,
        wsEvents (serveWebSocket env req
          (Transport.mk flusher (Except.error e) rnd sel) d).trace = []) := by
  refine ⟨?_, rfl, ?_, ?_, ?_⟩
  · rw [serveWebSocket_opened]
    cases hw : conn.writeErr 0 with
    | some e =>
      refine ⟨[Effect.printf "%s | %s\n" [Arg.str req.RemoteAddr, Arg.str e], Effect.wsClose],
        rfl, ?_, ?_⟩
      · simp [wsWritten, wsReceived]
      · simp [wsEvents]
    | none =>
      have h := echoLoop_written_received req conn.writeErr conn.reads 1
      cases hl : (echoLoop req conn.writeErr 1 conn.reads).2 with
      | some e =>
        refine ⟨(echoLoop req conn.writeErr 1 conn.reads).1 ++
          [Effect.printf "%s | %s\n" [Arg.str req.RemoteAddr, Arg.str e], Effect.wsClose],
          by simp, ?_, ?_⟩
        · rw [wsWritten_append, wsReceived_append, h]
          simp [wsWritten, wsReceived]
        · apply echoLoop_starts_reading
          intro x hx
          simp at hx
          rcases hx with hx | hx
          · exact Or.inr ⟨_, _, hx⟩
          · exact Or.inl hx
      | none =>
        refine ⟨(echoLoop req conn.writeErr 1 conn.reads).1, rfl, h, ?_⟩
        have := echoLoop_starts_reading req conn.writeErr 1 conn.reads [] (by simp)
        simpa using this
  · intro a b c host
    simp [introMessage, Sprintf_served]
  · intro a b c e
    simp [introMessage, Sprintf_unknown]
  · intro e
    simp [serveWebSocket, wsEvents]

end EchoServer
